/-
Verification of the Subduction compositor core against its specification.

The Rust sources are shallowly embedded:
  * `u64` / `u32` / `u8` values become `Nat`, with the bound `2^w` made
    explicit wherever wrap-around or saturation matters;
  * `f32` / `f64` values become exact rationals (`ℚ`); floating-point
    rounding is idealized away, which is the standard exact-arithmetic
    reading of the numeric code;
  * fallible reads become `Option`;
  * methods on `&mut self` become state-passing functions.

The development covers: the timing model (`timing.rs`, `time.rs`), the
scheduler (`scheduler.rs`), the affine media clock (`clock.rs`), the trace
recorder codec (`recorder.rs`), and the layer store with its evaluator
(`store.rs`, `evaluate.rs`, `transform.rs`).
-/
import Mathlib

namespace Subduction

/- The kernel evaluates rational arithmetic in the concrete-input theorems
below; restore the default reducibility of the four `Rat` operations for
this file so that `decide` can reduce them. -/
attribute [local semireducible] Rat.mul Rat.add Rat.sub Rat.inv

/-! ## Time primitives (`time.rs`)

`HostTime` and `Duration` wrap `u64` ticks; we model the tick value as a
plain `Nat` together with the explicit `u64` bound where overflow matters. -/

/-- Largest value representable in a `u64` (`u64::MAX`). -/
def u64Max : Nat := 2 ^ 64 - 1

/-- `HostTime::checked_add` — `None` when the `u64` addition would overflow. -/
def checkedAdd (now d : Nat) : Option Nat :=
  if now + d ≤ u64Max then some (now + d) else none

/-- `HostTime::saturating_duration_since` — `Nat` subtraction is already
saturating, matching `u64::saturating_sub`. -/
def saturatingDurationSince (now earlier : Nat) : Nat :=
  now - earlier

/-- `u64::saturating_add`, as the spec's words "saturating addition" describe
it.  This definition exists to compare the spec's claim about
`Scheduler::plan` with what `plan` (translated from the source) computes. -/
def specSaturatingAdd (a b : Nat) : Nat :=
  min (a + b) u64Max

/-! ## Timing model (`timing.rs`) -/

/-- `TimingConfidence` — how reliable the predicted present time is. -/
inductive TimingConfidence where
  | predictive
  | estimated
  | pacingOnly
deriving DecidableEq

/-- `FrameTick` — a frame opportunity delivered by the backend.
Times are `u64` tick counts, `output` is the `u32` inside `OutputId`. -/
structure FrameTick where
  now : Nat
  predicted_present : Option Nat
  refresh_interval : Option Nat
  confidence : TimingConfidence
  frame_index : Nat
  output : Nat
  prev_actual_present : Option Nat
deriving DecidableEq

/-- `FramePlan` — the plan for evaluating a single frame. -/
structure FramePlan where
  semantic_time : Nat
  present_time : Option Nat
  commit_deadline : Nat
  pipeline_depth : Nat
  output : Nat
  frame_index : Nat
deriving DecidableEq

/-- `PresentHints` — submission constraints provided by the backend. -/
structure PresentHints where
  desired_present : Option Nat
  latest_commit : Nat
deriving DecidableEq

/-- `PresentFeedback` — timing feedback fed back to the scheduler. -/
structure PresentFeedback where
  submitted_at : Nat
  build_start : Nat
  expected_present : Option Nat
  actual_present : Option Nat
  missed_deadline : Option Bool
deriving DecidableEq

/-- `PresentFeedback::new` — derives `missed_deadline`: when both
`actual_present` and `hints.desired_present` are known, `actual > expected`;
otherwise `submitted_at > hints.latest_commit`. -/
def PresentFeedback.new (hints : PresentHints) (build_start submitted_at : Nat)
    (actual_present : Option Nat) : PresentFeedback :=
  let expected_present := hints.desired_present
  let missed_deadline :=
    match actual_present, expected_present with
    | some actual, some expected => some (decide (expected < actual))
    | _, _ => some (decide (hints.latest_commit < submitted_at))
  { submitted_at, build_start, expected_present, actual_present, missed_deadline }

/-- `PendingFeedback` — data captured at submit time, resolved next frame. -/
structure PendingFeedback where
  hints : PresentHints
  build_start : Nat
  submitted_at : Nat
deriving DecidableEq

/-- `PendingFeedback::resolve`. -/
def PendingFeedback.resolve (p : PendingFeedback) (actual_present : Option Nat) :
    PresentFeedback :=
  PresentFeedback.new p.hints p.build_start p.submitted_at actual_present

/-! ## Scheduler (`scheduler.rs`)

`f32` quantities (the EMA and the safety multiplier) are modelled as exact
rationals; the `as u64` cast of the safety margin truncates toward zero and
saturates, as the Rust float-to-integer cast does. -/

/-- `DegradationPolicy`. -/
inductive DegradationPolicy where
  | adaptive (miss_threshold recovery_threshold : Nat)
  | fixed
deriving DecidableEq

/-- `SchedulerConfig`. Depths are `u8`, thresholds `u32`, `ema_alpha` and
`safety_multiplier` are `f32` modelled as `ℚ`, `nominal_latency` is a
`Duration` in ticks. -/
structure SchedulerConfig where
  initial_depth : Nat
  min_depth : Nat
  max_depth : Nat
  ema_alpha : ℚ
  safety_multiplier : ℚ
  nominal_latency : Nat
  degradation_policy : DegradationPolicy

/-- `SchedulerConfig::macos()`. -/
def SchedulerConfig.macos : SchedulerConfig :=
  { initial_depth := 2, min_depth := 1, max_depth := 3
    ema_alpha := 1/5, safety_multiplier := 3/2, nominal_latency := 0
    degradation_policy := .adaptive 3 10 }

/-- `SchedulerConfig::web()`. -/
def SchedulerConfig.web : SchedulerConfig :=
  { initial_depth := 2, min_depth := 1, max_depth := 3
    ema_alpha := 3/20, safety_multiplier := 2, nominal_latency := 16000000
    degradation_policy := .adaptive 3 10 }

/-- `Ema` — exponential moving average tracker with lazy first-sample init. -/
structure Ema where
  value : ℚ
  alpha : ℚ
  initialized : Bool
deriving DecidableEq

/-- `Ema::new`. -/
def Ema.new (alpha : ℚ) : Ema :=
  { value := 0, alpha, initialized := false }

/-- `Ema::update`. -/
def Ema.update (e : Ema) (sample : ℚ) : Ema :=
  if e.initialized then
    { e with value := e.alpha * sample + (1 - e.alpha) * e.value }
  else
    { e with value := sample, initialized := true }

/-- The Rust `f32 as u64` cast: truncate toward zero, saturating at the
`u64` range (negative values clamp to 0). -/
def ratToU64 (q : ℚ) : Nat :=
  min (Int.toNat ⌊q⌋) u64Max

/-- `Scheduler` state. -/
structure Scheduler where
  config : SchedulerConfig
  pipeline_depth : Nat
  build_cost_ema : Ema
  safety_margin_ticks : Nat
  consecutive_misses : Nat
  consecutive_hits : Nat

/-- `Scheduler::new`. -/
def Scheduler.new (config : SchedulerConfig) : Scheduler :=
  { pipeline_depth := config.initial_depth
    build_cost_ema := Ema.new config.ema_alpha
    safety_margin_ticks := 0
    consecutive_misses := 0
    consecutive_hits := 0
    config }

/-- `Scheduler::plan` — takes `&mut self` in Rust but writes no field, so the
state-passing translation returns the scheduler unchanged alongside the plan. -/
def Scheduler.plan (s : Scheduler) (tick : FrameTick) (hints : PresentHints) :
    FramePlan × Scheduler :=
  let target_present := hints.desired_present.or tick.predicted_present
  let pair : Option Nat × Nat :=
    match tick.confidence with
    | .predictive | .estimated =>
      (target_present, target_present.getD tick.now)
    | .pacingOnly =>
      (none, (checkedAdd tick.now s.config.nominal_latency).getD tick.now)
  ({ semantic_time := pair.2
     present_time := pair.1
     commit_deadline := hints.latest_commit
     pipeline_depth := s.pipeline_depth
     output := tick.output
     frame_index := tick.frame_index }, s)

/-- `Scheduler::observe` — EMA update, safety-margin update, then the
degradation step for the configured policy. -/
def Scheduler.observe (s : Scheduler) (feedback : PresentFeedback) : Scheduler :=
  let build_ticks := saturatingDurationSince feedback.submitted_at feedback.build_start
  let ema := s.build_cost_ema.update (build_ticks : ℚ)
  let margin := ratToU64 (ema.value * s.config.safety_multiplier)
  let s := { s with build_cost_ema := ema, safety_margin_ticks := margin }
  match s.config.degradation_policy with
  | .adaptive miss_threshold recovery_threshold =>
    match feedback.missed_deadline with
    | some true =>
      let misses := s.consecutive_misses + 1
      let s := { s with consecutive_misses := misses, consecutive_hits := 0 }
      if miss_threshold ≤ misses ∧ s.pipeline_depth < s.config.max_depth then
        { s with pipeline_depth := s.pipeline_depth + 1, consecutive_misses := 0 }
      else s
    | some false =>
      let hits := s.consecutive_hits + 1
      let s := { s with consecutive_hits := hits, consecutive_misses := 0 }
      if recovery_threshold ≤ hits ∧ s.config.min_depth < s.pipeline_depth then
        { s with pipeline_depth := s.pipeline_depth - 1, consecutive_hits := 0 }
      else s
    | none =>
      { s with consecutive_misses := 0, consecutive_hits := 0 }
  | .fixed => s

/-- Folding `Scheduler::observe` over a sequence of feedbacks. -/
def Scheduler.observeList (s : Scheduler) (fbs : List PresentFeedback) : Scheduler :=
  fbs.foldl Scheduler.observe s

/-! ## Affine media clock (`clock.rs`)

Two models of the `f64` arithmetic are given. `AffineClock` idealizes
`f64` as exact `ℚ`; `AffineClockF` is the rounding-faithful model: the
same code with every arithmetic operation (and the `u64 → f64` cast)
followed by IEEE-754 binary64 round-to-nearest-even (`fl64`), modelled
for finite results in the normal range — every value reached in this
file lies well inside it. Host tick counts stay `Nat`. -/

/-- `AffineClock` state. -/
structure AffineClock where
  rate : ℚ
  offset : ℚ
  rate_alpha : ℚ
  offset_alpha : ℚ
  initialized : Bool
  last_host : Nat
  last_media : ℚ

/-- `AffineClock::new`. -/
def AffineClock.new (initial_rate rate_alpha offset_alpha : ℚ) : AffineClock :=
  { rate := initial_rate, offset := 0, rate_alpha, offset_alpha
    initialized := false, last_host := 0, last_media := 0 }

/-- `AffineClock::media_time_at` — `None` before the first observation
(`f64` idealized as exact `ℚ`; see `AffineClockF.media_time_at` for the
rounding-faithful version). -/
def AffineClock.media_time_at (c : AffineClock) (host_ticks : Nat) : Option ℚ :=
  if c.initialized then some (c.rate * host_ticks + c.offset) else none

/-- `AffineClock::update` (`f64` idealized as exact `ℚ`; see
`AffineClockF.update` for the rounding-faithful version). -/
def AffineClock.update (c : AffineClock) (host_ticks : Nat) (media_time : ℚ) :
    AffineClock :=
  if c.initialized then
    let dt_host : Nat := host_ticks - c.last_host
    let c :=
      if 0 < dt_host then
        let observed_rate := (media_time - c.last_media) / (dt_host : ℚ)
        { c with rate := c.rate_alpha * observed_rate + (1 - c.rate_alpha) * c.rate }
      else c
    let predicted_media := c.rate * host_ticks + c.offset
    let offset_error := media_time - predicted_media
    { c with offset := c.offset + c.offset_alpha * offset_error
             last_host := host_ticks, last_media := media_time }
  else
    { c with offset := media_time - c.rate * host_ticks
             last_host := host_ticks, last_media := media_time
             initialized := true }

/-- `AffineClock::reset` — back to the uninitialized state (the smoothed
`rate` estimate is kept, as in the source). -/
def AffineClock.reset (c : AffineClock) : AffineClock :=
  { c with offset := 0, initialized := false, last_host := 0, last_media := 0 }

/-- Floor of `log₂ n` for `n ≥ 1` (structural on the fuel; `fuel = n`
always suffices since `n` halves each step). -/
def natLog2Aux : Nat → Nat → Nat
  | 0, _ => 0
  | fuel + 1, n => if n ≤ 1 then 0 else 1 + natLog2Aux fuel (n / 2)

/-- Floor of `log₂ n` for `n ≥ 1` (and `0` at `0`). -/
def natLog2 (n : Nat) : Nat := natLog2Aux n n

/-- `2 ^ e` in `ℚ` for an integer exponent `e`. -/
def pow2 (e : ℤ) : ℚ :=
  if 0 ≤ e then ((2 ^ e.toNat : ℕ) : ℚ) else 1 / ((2 ^ (-e).toNat : ℕ) : ℚ)

/-- For `q > 0`, the unique `k : ℤ` with `2 ^ k ≤ q < 2 ^ (k + 1)`:
the candidate from the numerator/denominator bit lengths is off by at
most one, and the comparisons pick the right neighbour. -/
def qlog2 (q : ℚ) : ℤ :=
  let k0 : ℤ := (natLog2 q.num.toNat : ℤ) - (natLog2 q.den : ℤ)
  if pow2 (k0 + 1) ≤ q then k0 + 1
  else if pow2 k0 ≤ q then k0
  else k0 - 1

/-- Round a rational to the nearest integer, ties to the even integer
(the IEEE-754 `roundTiesToEven` attribute). -/
def rneInt (q : ℚ) : ℤ :=
  let f := q.floor
  let frac := q - (f : ℚ)
  if frac < 1 / 2 then f
  else if 1 / 2 < frac then f + 1
  else if f % 2 = 0 then f else f + 1

/-- IEEE-754 binary64 round-to-nearest-even of a rational: the nearest
value `± m · 2 ^ e` with significand `2 ^ 52 ≤ m ≤ 2 ^ 53`, ties on the
53-bit significand going to even. Modelled for finite results in the
normal range (no overflow or subnormals — every value reached in this
file lies well inside). -/
def fl64 (q : ℚ) : ℚ :=
  if q = 0 then 0
  else
    let a := if q < 0 then -q else q
    let e : ℤ := qlog2 a - 52
    let v := (rneInt (a * pow2 (-e)) : ℚ) * pow2 e
    if q < 0 then -v else v

/-- `f64` addition: exact sum, then one rounding, as IEEE-754 requires. -/
def fadd (a b : ℚ) : ℚ := fl64 (a + b)

/-- `f64` subtraction: exact difference, then one rounding. -/
def fsub (a b : ℚ) : ℚ := fl64 (a - b)

/-- `f64` multiplication: exact product, then one rounding. -/
def fmul (a b : ℚ) : ℚ := fl64 (a * b)

/-- `f64` division: exact quotient, then one rounding. -/
def fdiv (a b : ℚ) : ℚ := fl64 (a / b)

/-- `AffineClock` state at the `f64` level: the fields hold the exact
rational values of the stored binary64 numbers. -/
structure AffineClockF where
  rate : ℚ
  offset : ℚ
  rate_alpha : ℚ
  offset_alpha : ℚ
  initialized : Bool
  last_host : Nat
  last_media : ℚ

/-- `AffineClock::new`, `f64` level. The arguments are `f64` values;
`fl64` normalizes a rational argument to its binary64 value (the
identity on already-representable inputs). -/
def AffineClockF.new (initial_rate rate_alpha offset_alpha : ℚ) : AffineClockF :=
  { rate := fl64 initial_rate, offset := 0
    rate_alpha := fl64 rate_alpha, offset_alpha := fl64 offset_alpha
    initialized := false, last_host := 0, last_media := 0 }

/-- `AffineClock::media_time_at`, `f64` level: `rate * host_ticks as f64
+ offset` is one rounded cast, one rounded multiply and one rounded add. -/
def AffineClockF.media_time_at (c : AffineClockF) (host_ticks : Nat) : Option ℚ :=
  if c.initialized then some (fadd (fmul c.rate (fl64 (host_ticks : ℚ))) c.offset)
  else none

/-- `AffineClock::update`, `f64` level: every arithmetic operation of the
source rounds its exact result to binary64. -/
def AffineClockF.update (c : AffineClockF) (host_ticks : Nat) (media_time : ℚ) :
    AffineClockF :=
  let media_time := fl64 media_time
  if c.initialized then
    let dt_host : Nat := host_ticks - c.last_host
    let c :=
      if 0 < dt_host then
        let observed_rate := fdiv (fsub media_time c.last_media) (fl64 (dt_host : ℚ))
        { c with rate := fadd (fmul c.rate_alpha observed_rate)
                           (fmul (fsub 1 c.rate_alpha) c.rate) }
      else c
    let predicted_media := fadd (fmul c.rate (fl64 (host_ticks : ℚ))) c.offset
    let offset_error := fsub media_time predicted_media
    { c with offset := fadd c.offset (fmul c.offset_alpha offset_error)
             last_host := host_ticks, last_media := media_time }
  else
    { c with offset := fsub media_time (fmul c.rate (fl64 (host_ticks : ℚ)))
             last_host := host_ticks, last_media := media_time
             initialized := true }

/-- `AffineClock::reset`, `f64` level (the smoothed `rate` estimate is
kept, as in the source). -/
def AffineClockF.reset (c : AffineClockF) : AffineClockF :=
  { c with offset := 0, initialized := false, last_host := 0, last_media := 0 }

/-! ## Trace event types (`trace.rs`)

Only the fields the recorder schema touches; `OutputId(u32)`, `HostTime(u64)`
and the counters become `Nat`. -/

/-- `PhaseKind`. -/
inductive PhaseKind where
  | plan
  | evaluate
  | render
  | submit
deriving DecidableEq

/-- `FrameTickEvent`. -/
structure FrameTickEvent where
  frame_index : Nat
  output : Nat
  now : Nat
  predicted_present : Option Nat
  refresh_interval : Option Nat
  confidence : TimingConfidence
deriving DecidableEq

/-- `FramePlanEvent`. -/
structure FramePlanEvent where
  frame_index : Nat
  output : Nat
  semantic_time : Nat
  present_time : Option Nat
  commit_deadline : Nat
  pipeline_depth : Nat
  safety_margin_ticks : Nat
deriving DecidableEq

/-- `PhaseBeginEvent`. -/
structure PhaseBeginEvent where
  frame_index : Nat
  phase : PhaseKind
  timestamp : Nat
deriving DecidableEq

/-- `PhaseEndEvent`. -/
structure PhaseEndEvent where
  frame_index : Nat
  phase : PhaseKind
  timestamp : Nat
deriving DecidableEq

/-- `SubmitEvent`. -/
structure SubmitEvent where
  frame_index : Nat
  submitted_at : Nat
  expected_present : Option Nat
deriving DecidableEq

/-- `PresentFeedbackEvent`. -/
structure PresentFeedbackEvent where
  frame_index : Nat
  actual_present : Option Nat
  missed_deadline : Option Bool
deriving DecidableEq

/-- `FrameSummary`. -/
structure FrameSummary where
  frame_index : Nat
  output : Nat
  confidence : TimingConfidence
  now : Nat
  present_time : Option Nat
  semantic_time : Nat
  deadline : Nat
  pipeline_depth : Nat
  plan_ticks : Nat
  eval_ticks : Nat
  render_ticks : Nat
  submit_ticks : Nat
  missed_deadline : Bool
deriving DecidableEq

/-! ## Recorder codec (`recorder.rs`)

The byte buffer is a `List Nat` of byte values.  Encoding writes fixed
little-endian fields after a one-byte tag; decoding is a total function on
arbitrary byte lists that mirrors the bounds-checked `read_*` helpers. -/

/-- `u{8,32,64}::to_le_bytes` — `w` little-endian bytes of `v`. -/
def toLE : Nat → Nat → List Nat
  | 0, _ => []
  | w + 1, v => v % 256 :: toLE w (v / 256)

/-- `from_le_bytes` — recombine little-endian bytes. -/
def fromLE (bs : List Nat) : Nat :=
  bs.foldr (fun b acc => b + 256 * acc) 0

/-- `RecorderSink::write_option_u64` — presence flag byte, then the value
(or a zero placeholder). -/
def encOptU64 : Option Nat → List Nat
  | some v => 1 :: toLE 8 v
  | none => 0 :: toLE 8 0

/-- `RecorderSink::write_option_bool` — 0 = unknown, 1 = false, 2 = true. -/
def encOptBool : Option Bool → List Nat
  | some true => [2]
  | some false => [1]
  | none => [0]

/-- `RecorderSink::write_confidence`. -/
def confByte : TimingConfidence → Nat
  | .predictive => 0
  | .estimated => 1
  | .pacingOnly => 2

/-- `RecorderSink::write_phase`. -/
def phaseByte : PhaseKind → Nat
  | .plan => 0
  | .evaluate => 1
  | .render => 2
  | .submit => 3

/-- `RecorderSink::on_frame_tick` (tag 1). -/
def encodeFrameTick (e : FrameTickEvent) : List Nat :=
  1 :: (toLE 8 e.frame_index ++ toLE 4 e.output ++ toLE 8 e.now ++
    encOptU64 e.predicted_present ++ encOptU64 e.refresh_interval ++
    [confByte e.confidence])

/-- `RecorderSink::on_frame_plan` (tag 2). -/
def encodeFramePlan (e : FramePlanEvent) : List Nat :=
  2 :: (toLE 8 e.frame_index ++ toLE 4 e.output ++ toLE 8 e.semantic_time ++
    encOptU64 e.present_time ++ toLE 8 e.commit_deadline ++
    [e.pipeline_depth] ++ toLE 8 e.safety_margin_ticks)

/-- `RecorderSink::on_phase_begin` (tag 3). -/
def encodePhaseBegin (e : PhaseBeginEvent) : List Nat :=
  3 :: (toLE 8 e.frame_index ++ [phaseByte e.phase] ++ toLE 8 e.timestamp)

/-- `RecorderSink::on_phase_end` (tag 4). -/
def encodePhaseEnd (e : PhaseEndEvent) : List Nat :=
  4 :: (toLE 8 e.frame_index ++ [phaseByte e.phase] ++ toLE 8 e.timestamp)

/-- `RecorderSink::on_submit` (tag 5). -/
def encodeSubmit (e : SubmitEvent) : List Nat :=
  5 :: (toLE 8 e.frame_index ++ toLE 8 e.submitted_at ++
    encOptU64 e.expected_present)

/-- `RecorderSink::on_present_feedback` (tag 6). -/
def encodePresentFeedback (e : PresentFeedbackEvent) : List Nat :=
  6 :: (toLE 8 e.frame_index ++ encOptU64 e.actual_present ++
    encOptBool e.missed_deadline)

/-- `RecorderSink::on_frame_summary` (tag 7). -/
def encodeFrameSummary (s : FrameSummary) : List Nat :=
  7 :: (toLE 8 s.frame_index ++ toLE 4 s.output ++ [confByte s.confidence] ++
    toLE 8 s.now ++ encOptU64 s.present_time ++ toLE 8 s.semantic_time ++
    toLE 8 s.deadline ++ [s.pipeline_depth] ++ toLE 8 s.plan_ticks ++
    toLE 8 s.eval_ticks ++ toLE 8 s.render_ticks ++ toLE 8 s.submit_ticks ++
    [if s.missed_deadline then 1 else 0])

/-- `RecorderSink::on_layer_changes` (tag 8) — the change payload is
discarded; only the frame index and the `u32`-capped element count are
written.  `changeCount` stands for `changes.len()`. -/
def encodeLayerChanges (frame_index changeCount : Nat) : List Nat :=
  8 :: (toLE 8 frame_index ++ toLE 4 (min changeCount (2 ^ 32 - 1)))

/-- `RecorderSink::on_damage_rects` (tag 9) — same shape as layer changes. -/
def encodeDamageRects (frame_index rectCount : Nat) : List Nat :=
  9 :: (toLE 8 frame_index ++ toLE 4 (min rectCount (2 ^ 32 - 1)))

/-- `RecordedEvent` — a decoded event. -/
inductive RecordedEvent where
  | frameTick (e : FrameTickEvent)
  | framePlan (e : FramePlanEvent)
  | phaseBegin (e : PhaseBeginEvent)
  | phaseEnd (e : PhaseEndEvent)
  | submit (e : SubmitEvent)
  | presentFeedback (e : PresentFeedbackEvent)
  | frameSummary (s : FrameSummary)
  | layerChangesCount (frame_index count : Nat)
  | damageRectsCount (frame_index count : Nat)
deriving DecidableEq

/-- `DecodeIter::read_u8` — one byte, or `None` past the end. -/
def readU8 : List Nat → Option (Nat × List Nat)
  | [] => none
  | b :: rest => some (b, rest)

/-- `DecodeIter::read_u32` / `read_u64` generalized: `w` little-endian
bytes recombined, or `None` when fewer than `w` bytes remain. -/
def readLE (w : Nat) (bs : List Nat) : Option (Nat × List Nat) :=
  if bs.length < w then none else some (fromLE (bs.take w), bs.drop w)

/-- `DecodeIter::read_option_u64` — presence byte then value. -/
def readOptU64 (bs : List Nat) : Option (Option Nat × List Nat) := do
  let (present, bs) ← readU8 bs
  let (val, bs) ← readLE 8 bs
  pure (if present ≠ 0 then some val else none, bs)

/-- `DecodeIter::read_option_bool`. -/
def readOptBool (bs : List Nat) : Option (Option Bool × List Nat) := do
  let (v, bs) ← readU8 bs
  pure (match v with
        | 0 => (none : Option Bool)
        | 1 => some false
        | _ => some true, bs)

/-- `DecodeIter::read_confidence`. -/
def readConfidence (bs : List Nat) : Option (TimingConfidence × List Nat) := do
  let (v, bs) ← readU8 bs
  pure (match v with
        | 0 => TimingConfidence.predictive
        | 1 => TimingConfidence.estimated
        | _ => TimingConfidence.pacingOnly, bs)

/-- `DecodeIter::read_phase`. -/
def readPhase (bs : List Nat) : Option (PhaseKind × List Nat) := do
  let (v, bs) ← readU8 bs
  pure (match v with
        | 0 => PhaseKind.plan
        | 1 => PhaseKind.evaluate
        | 2 => PhaseKind.render
        | _ => PhaseKind.submit, bs)

/-- `DecodeIter::decode_frame_tick`. -/
def decodeFrameTickP (bs : List Nat) : Option (RecordedEvent × List Nat) := do
  let (frame_index, bs) ← readLE 8 bs
  let (output, bs) ← readLE 4 bs
  let (now, bs) ← readLE 8 bs
  let (predicted_present, bs) ← readOptU64 bs
  let (refresh_interval, bs) ← readOptU64 bs
  let (confidence, bs) ← readConfidence bs
  pure (.frameTick { frame_index, output, now, predicted_present,
                     refresh_interval, confidence }, bs)

/-- `DecodeIter::decode_frame_plan`. -/
def decodeFramePlanP (bs : List Nat) : Option (RecordedEvent × List Nat) := do
  let (frame_index, bs) ← readLE 8 bs
  let (output, bs) ← readLE 4 bs
  let (semantic_time, bs) ← readLE 8 bs
  let (present_time, bs) ← readOptU64 bs
  let (commit_deadline, bs) ← readLE 8 bs
  let (pipeline_depth, bs) ← readU8 bs
  let (safety_margin_ticks, bs) ← readLE 8 bs
  pure (.framePlan { frame_index, output, semantic_time, present_time,
                     commit_deadline, pipeline_depth, safety_margin_ticks }, bs)

/-- `DecodeIter::decode_phase_begin`. -/
def decodePhaseBeginP (bs : List Nat) : Option (RecordedEvent × List Nat) := do
  let (frame_index, bs) ← readLE 8 bs
  let (phase, bs) ← readPhase bs
  let (timestamp, bs) ← readLE 8 bs
  pure (.phaseBegin { frame_index, phase, timestamp }, bs)

/-- `DecodeIter::decode_phase_end`. -/
def decodePhaseEndP (bs : List Nat) : Option (RecordedEvent × List Nat) := do
  let (frame_index, bs) ← readLE 8 bs
  let (phase, bs) ← readPhase bs
  let (timestamp, bs) ← readLE 8 bs
  pure (.phaseEnd { frame_index, phase, timestamp }, bs)

/-- `DecodeIter::decode_submit`. -/
def decodeSubmitP (bs : List Nat) : Option (RecordedEvent × List Nat) := do
  let (frame_index, bs) ← readLE 8 bs
  let (submitted_at, bs) ← readLE 8 bs
  let (expected_present, bs) ← readOptU64 bs
  pure (.submit { frame_index, submitted_at, expected_present }, bs)

/-- `DecodeIter::decode_present_feedback`. -/
def decodePresentFeedbackP (bs : List Nat) : Option (RecordedEvent × List Nat) := do
  let (frame_index, bs) ← readLE 8 bs
  let (actual_present, bs) ← readOptU64 bs
  let (missed_deadline, bs) ← readOptBool bs
  pure (.presentFeedback { frame_index, actual_present, missed_deadline }, bs)

/-- `DecodeIter::decode_frame_summary`. -/
def decodeFrameSummaryP (bs : List Nat) : Option (RecordedEvent × List Nat) := do
  let (frame_index, bs) ← readLE 8 bs
  let (output, bs) ← readLE 4 bs
  let (confidence, bs) ← readConfidence bs
  let (now, bs) ← readLE 8 bs
  let (present_time, bs) ← readOptU64 bs
  let (semantic_time, bs) ← readLE 8 bs
  let (deadline, bs) ← readLE 8 bs
  let (pipeline_depth, bs) ← readU8 bs
  let (plan_ticks, bs) ← readLE 8 bs
  let (eval_ticks, bs) ← readLE 8 bs
  let (render_ticks, bs) ← readLE 8 bs
  let (submit_ticks, bs) ← readLE 8 bs
  let (missedByte, bs) ← readU8 bs
  pure (.frameSummary { frame_index, output, confidence, now, present_time,
                        semantic_time, deadline, pipeline_depth, plan_ticks,
                        eval_ticks, render_ticks, submit_ticks,
                        missed_deadline := missedByte ≠ 0 }, bs)

/-- `DecodeIter::decode_layer_changes_count`. -/
def decodeLayerChangesP (bs : List Nat) : Option (RecordedEvent × List Nat) := do
  let (frame_index, bs) ← readLE 8 bs
  let (count, bs) ← readLE 4 bs
  pure (.layerChangesCount frame_index count, bs)

/-- `DecodeIter::decode_damage_rects_count`. -/
def decodeDamageRectsP (bs : List Nat) : Option (RecordedEvent × List Nat) := do
  let (frame_index, bs) ← readLE 8 bs
  let (count, bs) ← readLE 4 bs
  pure (.damageRectsCount frame_index count, bs)

/-- `DecodeIter::next` — read the tag byte, then dispatch; unknown tags stop
decoding. -/
def decodeNext (bs : List Nat) : Option (RecordedEvent × List Nat) := do
  let (tag, bs) ← readU8 bs
  match tag with
  | 1 => decodeFrameTickP bs
  | 2 => decodeFramePlanP bs
  | 3 => decodePhaseBeginP bs
  | 4 => decodePhaseEndP bs
  | 5 => decodeSubmitP bs
  | 6 => decodePresentFeedbackP bs
  | 7 => decodeFrameSummaryP bs
  | 8 => decodeLayerChangesP bs
  | 9 => decodeDamageRectsP bs
  | _ => none

/-- Fixed payload size (bytes after the tag) of each known record tag. -/
def payloadLen : Nat → Nat
  | 1 => 39
  | 2 => 46
  | 3 => 17
  | 4 => 17
  | 5 => 25
  | 6 => 18
  | 7 => 80
  | 8 => 12
  | 9 => 12
  | _ => 0

/-- Iterating `decodeNext` with explicit fuel; `decodeNext` always consumes
at least the tag byte, so `bs.length` steps always reach the end. -/
def decodeAux : Nat → List Nat → List RecordedEvent
  | 0, _ => []
  | fuel + 1, bs =>
    match decodeNext bs with
    | none => []
    | some (e, rest) => e :: decodeAux fuel rest

/-- Collecting the `DecodeIter` iterator into a list: repeat `decodeNext`
until it returns `None` (end of data, truncation, or unknown tag). -/
def decode (bs : List Nat) : List RecordedEvent :=
  decodeAux bs.length bs

/-! ## Transform (`transform.rs`)

A column-major 4×4 of `f64`, with `f64` modelled as `ℚ`. -/

/-- One column `[x, y, z, w]` of a `Transform3d`. -/
structure Col4 where
  x : ℚ
  y : ℚ
  z : ℚ
  w : ℚ
deriving DecidableEq

/-- `Transform3d` — four columns. -/
structure Transform3d where
  c0 : Col4
  c1 : Col4
  c2 : Col4
  c3 : Col4
deriving DecidableEq

/-- `Transform3d::IDENTITY`. -/
def Transform3d.identity : Transform3d :=
  { c0 := ⟨1, 0, 0, 0⟩, c1 := ⟨0, 1, 0, 0⟩, c2 := ⟨0, 0, 1, 0⟩, c3 := ⟨0, 0, 0, 1⟩ }

/-- `Transform3d::from_translation`. -/
def Transform3d.from_translation (x y z : ℚ) : Transform3d :=
  { c0 := ⟨1, 0, 0, 0⟩, c1 := ⟨0, 1, 0, 0⟩, c2 := ⟨0, 0, 1, 0⟩, c3 := ⟨x, y, z, 1⟩ }

/-- Row `i` of `a` dotted with column `b` — the inner loop of
`Transform3d::mul`: `out[j][i] = Σ_k a[k][i] * b[j][k]`. -/
def Transform3d.applyCol (a : Transform3d) (b : Col4) : Col4 :=
  { x := a.c0.x * b.x + a.c1.x * b.y + a.c2.x * b.z + a.c3.x * b.w
    y := a.c0.y * b.x + a.c1.y * b.y + a.c2.y * b.z + a.c3.y * b.w
    z := a.c0.z * b.x + a.c1.z * b.y + a.c2.z * b.z + a.c3.z * b.w
    w := a.c0.w * b.x + a.c1.w * b.y + a.c2.w * b.z + a.c3.w * b.w }

/-- `impl Mul for Transform3d` — standard column-major 4×4 product. -/
def Transform3d.mul (a b : Transform3d) : Transform3d :=
  { c0 := a.applyCol b.c0, c1 := a.applyCol b.c1
    c2 := a.applyCol b.c2, c3 := a.applyCol b.c3 }

instance : Mul Transform3d := ⟨Transform3d.mul⟩

/-! ## Layer store (`store.rs`, `id.rs`, `clip.rs`, `evaluate.rs`)

Struct-of-arrays storage; the dense `Vec`s become `List`s indexed by slot,
with `u32::MAX` as the "none" sentinel, exactly as in the source.  Panicking
validation (`validate`, the topology `assert!`s) is modelled as a
precondition: the functions below give the behavior of the non-panicking
path, and every claim only exercises precondition-satisfying calls. -/

/-- `INVALID` — the `u32::MAX` sentinel for "no layer". -/
def INVALID : Nat := 2 ^ 32 - 1

/-- `LayerId` — slot index plus generation counter. -/
structure LayerId where
  idx : Nat
  generation : Nat
deriving DecidableEq

/-- `ClipShape` — the kurbo rectangle payloads are modelled by their `f64`
coordinates as rationals (a rounded rectangle by its corner radius). -/
inductive ClipShape where
  | rect (x0 y0 x1 y1 : ℚ)
  | roundedRect (x0 y0 x1 y1 radius : ℚ)
deriving DecidableEq

/-- `LayerFlags`. -/
structure LayerFlags where
  hidden : Bool
deriving DecidableEq

/-- Dirty channel numbers (`dirty.rs`): `TRANSFORM`, `OPACITY`, `CLIP`,
`CONTENT`, `TOPOLOGY`. -/
def chTRANSFORM : Nat := 0

/-- `OPACITY` channel (1). -/
def chOPACITY : Nat := 1

/-- `CLIP` channel (2). -/
def chCLIP : Nat := 2

/-- `CONTENT` channel (3). -/
def chCONTENT : Nat := 3

/-- `TOPOLOGY` channel (4). -/
def chTOPOLOGY : Nat := 4

/-- Modelled from the spec: the `understory_dirty::DirtyTracker` used by the
layer store is an external dependency whose source is not in this
repository.  Following §4.3 of the spec it keeps, per channel, a set of
dirty keys and a set of dependency edges; `mark` records a key,
`mark_with(_, _, EagerPolicy)` additionally marks all transitive dependents
along the channel's edges, `add_dependency`/`remove_dependency` maintain
edges, `remove_key` drops all dirtiness and edges touching a key, and
`drain` returns the channel's dirty keys in a deterministic order (modelled
here as first-marked order) and clears the channel. -/
structure DirtyTracker where
  marked : List (Nat × Nat)
  edges : List (Nat × Nat × Nat)
deriving DecidableEq

/-- Fresh tracker. -/
def DirtyTracker.new : DirtyTracker := ⟨[], []⟩

/-- `mark(key, channel)` — local-only policy. -/
def DirtyTracker.mark (t : DirtyTracker) (key ch : Nat) : DirtyTracker :=
  if t.marked.contains (ch, key) then t
  else { t with marked := t.marked ++ [(ch, key)] }

/-- Keys with an edge `dependent → key` in the given channel. -/
def DirtyTracker.dependentsOf (t : DirtyTracker) (ch key : Nat) : List Nat :=
  (t.edges.filter (fun e => e.1 == ch && e.2.2 == key)).map (fun e => e.2.1)

/-- Transitive dependents, breadth-first from a frontier; the fuel bound
`edges.length + 1` exceeds the longest possible dependency chain. -/
def DirtyTracker.eagerClose (t : DirtyTracker) (ch : Nat) :
    Nat → List Nat → List Nat → List Nat
  | 0, acc, _ => acc
  | fuel + 1, acc, frontier =>
    let next := (((frontier.map (t.dependentsOf ch)).flatten).filter
      (fun k => !(acc.contains k))).eraseDups
    match next with
    | [] => acc
    | _ => t.eagerClose ch fuel (acc ++ next) next

/-- `mark_with(key, channel, &EagerPolicy)` — mark the key and all its
transitive dependents along the channel's edges. -/
def DirtyTracker.markEager (t : DirtyTracker) (key ch : Nat) : DirtyTracker :=
  let ks := t.eagerClose ch (t.edges.length + 1) [key] [key]
  ks.foldl (fun acc k => acc.mark k ch) t

/-- `add_dependency(dependent, dependency, channel)` (the cycle-detection
result is discarded by every store call site). -/
def DirtyTracker.addDependency (t : DirtyTracker) (dependent dependency ch : Nat) :
    DirtyTracker :=
  if t.edges.contains (ch, dependent, dependency) then t
  else { t with edges := t.edges ++ [(ch, dependent, dependency)] }

/-- `remove_dependency(dependent, dependency, channel)`. -/
def DirtyTracker.removeDependency (t : DirtyTracker) (dependent dependency ch : Nat) :
    DirtyTracker :=
  { t with edges := t.edges.filter (fun e => !(e == (ch, dependent, dependency))) }

/-- `remove_key(key)` — drop all dirtiness and all edges touching the key. -/
def DirtyTracker.removeKey (t : DirtyTracker) (key : Nat) : DirtyTracker :=
  { marked := t.marked.filter (fun m => m.2 != key)
    edges := t.edges.filter (fun e => e.2.1 != key && e.2.2 != key) }

/-- `drain(channel)` — the channel's dirty keys in first-marked order, and
the tracker with that channel cleared. -/
def DirtyTracker.drain (t : DirtyTracker) (ch : Nat) : List Nat × DirtyTracker :=
  ((t.marked.filter (fun m => m.1 == ch)).map (fun m => m.2),
   { t with marked := t.marked.filter (fun m => m.1 != ch) })

/-- `LayerStore` — struct-of-arrays layer storage.  The free list keeps its
stack top at the head (`Vec::push`/`pop` act on the tail; only membership
and pop order are observable). -/
structure LayerStore where
  parent : List Nat
  first_child : List Nat
  next_sibling : List Nat
  prev_sibling : List Nat
  local_transform : List Transform3d
  local_opacity : List ℚ
  clip : List (Option ClipShape)
  content : List (Option Nat)
  flags : List LayerFlags
  world_transform : List Transform3d
  effective_opacity : List ℚ
  effective_hidden : List Bool
  generation : List Nat
  free_list : List Nat
  len : Nat
  dirty : DirtyTracker
  traversal_order : List Nat
  traversal_dirty : Bool
  pending_added : List Nat
  pending_removed : List Nat

/-- `LayerStore::new`. -/
def LayerStore.new : LayerStore :=
  { parent := [], first_child := [], next_sibling := [], prev_sibling := []
    local_transform := [], local_opacity := [], clip := [], content := []
    flags := [], world_transform := [], effective_opacity := []
    effective_hidden := [], generation := [], free_list := [], len := 0
    dirty := DirtyTracker.new, traversal_order := [], traversal_dirty := true
    pending_added := [], pending_removed := [] }

/-- `LayerStore::create_layer`. -/
def LayerStore.create_layer (s : LayerStore) : LayerId × LayerStore :=
  let (idx, s) :=
    match s.free_list with
    | idx :: restFree =>
      (idx,
       { s with
         generation := s.generation.set idx (s.generation.getD idx 0 + 1)
         parent := s.parent.set idx INVALID
         first_child := s.first_child.set idx INVALID
         next_sibling := s.next_sibling.set idx INVALID
         prev_sibling := s.prev_sibling.set idx INVALID
         local_transform := s.local_transform.set idx Transform3d.identity
         local_opacity := s.local_opacity.set idx 1
         clip := s.clip.set idx none
         content := s.content.set idx none
         flags := s.flags.set idx ({ hidden := false } : LayerFlags)
         world_transform := s.world_transform.set idx Transform3d.identity
         effective_opacity := s.effective_opacity.set idx 1
         effective_hidden := s.effective_hidden.set idx false
         free_list := restFree })
    | [] =>
      (s.len,
       { s with
         len := s.len + 1
         parent := s.parent ++ [INVALID]
         first_child := s.first_child ++ [INVALID]
         next_sibling := s.next_sibling ++ [INVALID]
         prev_sibling := s.prev_sibling ++ [INVALID]
         local_transform := s.local_transform ++ [Transform3d.identity]
         local_opacity := s.local_opacity ++ [1]
         clip := s.clip ++ [none]
         content := s.content ++ [none]
         flags := s.flags ++ [({ hidden := false } : LayerFlags)]
         world_transform := s.world_transform ++ [Transform3d.identity]
         effective_opacity := s.effective_opacity ++ [1]
         effective_hidden := s.effective_hidden ++ [false]
         generation := s.generation ++ [0] })
  let s := { s with traversal_dirty := true
                    pending_added := s.pending_added ++ [idx]
                    dirty := s.dirty.mark idx chTOPOLOGY }
  ({ idx, generation := s.generation.getD idx 0 }, s)

/-- `LayerStore::is_alive`. -/
def LayerStore.is_alive (s : LayerStore) (id : LayerId) : Bool :=
  id.idx < s.len && s.generation.getD id.idx 0 == id.generation
    && !(s.free_list.contains id.idx)

/-- `LayerStore::unlink_from_parent` — remove `idx` from its parent's child
list without touching dirty state. -/
def LayerStore.unlink_from_parent (s : LayerStore) (idx : Nat) : LayerStore :=
  let p := s.parent.getD idx INVALID
  let prev := s.prev_sibling.getD idx INVALID
  let next := s.next_sibling.getD idx INVALID
  let s :=
    if prev != INVALID then { s with next_sibling := s.next_sibling.set prev next }
    else { s with first_child := s.first_child.set p next }
  let s :=
    if next != INVALID then { s with prev_sibling := s.prev_sibling.set next prev }
    else s
  { s with parent := s.parent.set idx INVALID
           prev_sibling := s.prev_sibling.set idx INVALID
           next_sibling := s.next_sibling.set idx INVALID }

/-- `LayerStore::destroy_layer` — precondition: the handle is live and the
layer has no children. -/
def LayerStore.destroy_layer (s : LayerStore) (id : LayerId) : LayerStore :=
  let idx := id.idx
  let s := if s.parent.getD idx INVALID != INVALID then s.unlink_from_parent idx else s
  let s := { s with dirty := s.dirty.removeKey idx }
  let s := { s with generation := s.generation.set idx (s.generation.getD idx 0 + 1) }
  { s with free_list := idx :: s.free_list
           traversal_dirty := true
           pending_removed := s.pending_removed ++ [idx]
           dirty := s.dirty.mark idx chTOPOLOGY }

/-- `mark_subtree_inherited_dirty` — eager `TRANSFORM` and `OPACITY` marks
for the subtree rooted at `idx` (via the tracker's dependency edges). -/
def LayerStore.mark_subtree_inherited_dirty (s : LayerStore) (idx : Nat) : LayerStore :=
  { s with dirty := (s.dirty.markEager idx chTRANSFORM).markEager idx chOPACITY }

/-- The "walk to last child" loop of `add_child`/`reparent`. -/
def walkLast (next_sibling : List Nat) : Nat → Nat → Nat
  | 0, c => c
  | fuel + 1, c =>
    let n := next_sibling.getD c INVALID
    if n == INVALID then c else walkLast next_sibling fuel n

/-- The child-list splice shared verbatim by `add_child` and `reparent`:
append `c` as the last child of `p`. -/
def LayerStore.appendChild (s : LayerStore) (p c : Nat) : LayerStore :=
  let s := { s with parent := s.parent.set c p
                    prev_sibling := s.prev_sibling.set c INVALID
                    next_sibling := s.next_sibling.set c INVALID }
  if s.first_child.getD p INVALID == INVALID then
    { s with first_child := s.first_child.set p c }
  else
    let last := walkLast s.next_sibling s.len (s.first_child.getD p INVALID)
    { s with next_sibling := s.next_sibling.set last c
             prev_sibling := s.prev_sibling.set c last }

/-- `LayerStore::add_child` — precondition: both handles live, `child` has
no parent. -/
def LayerStore.add_child (s : LayerStore) (parentId childId : LayerId) : LayerStore :=
  let p := parentId.idx
  let c := childId.idx
  let s := s.appendChild p c
  let s := { s with dirty := (s.dirty.addDependency c p chTRANSFORM).addDependency
                      c p chOPACITY }
  let s := s.mark_subtree_inherited_dirty c
  { s with traversal_dirty := true, dirty := s.dirty.mark p chTOPOLOGY }

/-- `LayerStore::remove_from_parent` — precondition: handle live, layer has
a parent. -/
def LayerStore.remove_from_parent (s : LayerStore) (childId : LayerId) : LayerStore :=
  let c := childId.idx
  let p := s.parent.getD c INVALID
  let s := s.unlink_from_parent c
  let s := { s with dirty := (s.dirty.removeDependency c p chTRANSFORM).removeDependency
                      c p chOPACITY }
  let s := s.mark_subtree_inherited_dirty c
  { s with traversal_dirty := true, dirty := s.dirty.mark p chTOPOLOGY }

/-- `LayerStore::reparent` — precondition: both handles live. -/
def LayerStore.reparent (s : LayerStore) (childId newParentId : LayerId) : LayerStore :=
  let c := childId.idx
  let s :=
    if s.parent.getD c INVALID != INVALID then
      let old_p := s.parent.getD c INVALID
      let s := s.unlink_from_parent c
      let s := { s with dirty := (s.dirty.removeDependency c old_p chTRANSFORM).removeDependency
                          c old_p chOPACITY }
      { s with dirty := s.dirty.mark old_p chTOPOLOGY }
    else s
  let p := newParentId.idx
  let s := s.appendChild p c
  let s := { s with dirty := (s.dirty.addDependency c p chTRANSFORM).addDependency
                      c p chOPACITY }
  let s := s.mark_subtree_inherited_dirty c
  { s with traversal_dirty := true, dirty := s.dirty.mark p chTOPOLOGY }

/-- `LayerStore::insert_before` — precondition: both handles live, `child`
has no parent, `sibling` has one.  Note: unlike `add_child`,
`remove_from_parent` and `reparent`, the source does **not** call
`mark_subtree_inherited_dirty` here. -/
def LayerStore.insert_before (s : LayerStore) (childId siblingId : LayerId) : LayerStore :=
  let c := childId.idx
  let sidx := siblingId.idx
  let p := s.parent.getD sidx INVALID
  let prevOfSibling := s.prev_sibling.getD sidx INVALID
  let s := { s with parent := s.parent.set c p
                    next_sibling := s.next_sibling.set c sidx
                    prev_sibling := s.prev_sibling.set c prevOfSibling }
  let s :=
    if prevOfSibling != INVALID then
      { s with next_sibling := s.next_sibling.set prevOfSibling c }
    else
      { s with first_child := s.first_child.set p c }
  let s := { s with prev_sibling := s.prev_sibling.set sidx c }
  let s := { s with dirty := (s.dirty.addDependency c p chTRANSFORM).addDependency
                      c p chOPACITY }
  { s with traversal_dirty := true, dirty := s.dirty.mark p chTOPOLOGY }

/-- `LayerStore::set_transform` — eager `TRANSFORM` mark. -/
def LayerStore.set_transform (s : LayerStore) (id : LayerId) (t : Transform3d) :
    LayerStore :=
  { s with local_transform := s.local_transform.set id.idx t
           dirty := s.dirty.markEager id.idx chTRANSFORM }

/-- `LayerStore::set_opacity` — eager `OPACITY` mark. -/
def LayerStore.set_opacity (s : LayerStore) (id : LayerId) (o : ℚ) : LayerStore :=
  { s with local_opacity := s.local_opacity.set id.idx o
           dirty := s.dirty.markEager id.idx chOPACITY }

/-- `LayerStore::set_clip` — local `CLIP` mark. -/
def LayerStore.set_clip (s : LayerStore) (id : LayerId) (c : Option ClipShape) :
    LayerStore :=
  { s with clip := s.clip.set id.idx c
           dirty := s.dirty.mark id.idx chCLIP }

/-- `LayerStore::set_content` — local `CONTENT` mark. -/
def LayerStore.set_content (s : LayerStore) (id : LayerId) (c : Option Nat) :
    LayerStore :=
  { s with content := s.content.set id.idx c
           dirty := s.dirty.mark id.idx chCONTENT }

/-- `LayerStore::set_flags` — routed through the eager `TRANSFORM` mark. -/
def LayerStore.set_flags (s : LayerStore) (id : LayerId) (f : LayerFlags) : LayerStore :=
  { s with flags := s.flags.set id.idx f
           dirty := s.dirty.markEager id.idx chTRANSFORM }

/-- `FrameChanges` — the change-set produced by one evaluation. -/
structure FrameChanges where
  transforms : List Nat
  opacities : List Nat
  clips : List Nat
  content : List Nat
  hidden : List Nat
  unhidden : List Nat
  added : List Nat
  removed : List Nat
  topology_changed : Bool
deriving DecidableEq

/-- The sibling walk of `dfs_collect`: the children of one layer, first
child to last. -/
def childList (next_sibling : List Nat) : Nat → Nat → List Nat
  | 0, _ => []
  | fuel + 1, c =>
    if c == INVALID then [] else c :: childList next_sibling fuel (next_sibling.getD c INVALID)

/-- `LayerStore::dfs_collect` — depth-first pre-order from `idx`; fuel
bounds the depth (the store holds `len` layers, so `len` suffices). -/
def LayerStore.dfsCollect (s : LayerStore) : Nat → Nat → List Nat
  | 0, _ => []
  | fuel + 1, idx =>
    idx :: ((childList s.next_sibling s.len (s.first_child.getD idx INVALID)).map
      (s.dfsCollect fuel)).flatten

/-- `LayerStore::rebuild_traversal_order` — DFS from each root, roots in
ascending slot order. -/
def LayerStore.rebuild_traversal_order (s : LayerStore) : LayerStore :=
  let roots := (List.range s.len).filter
    (fun i => s.parent.getD i INVALID == INVALID && !(s.free_list.contains i))
  { s with traversal_order := (roots.map (s.dfsCollect s.len)).flatten }

/-- One `TRANSFORM`-drain recompute step of `evaluate_into`: world transform
from the parent's cached value, effective hidden with flip tracking. -/
def LayerStore.transformStep (acc : LayerStore × List Nat × List Nat) (idx : Nat) :
    LayerStore × List Nat × List Nat :=
  let (s, hid, unhid) := acc
  let parent_idx := s.parent.getD idx INVALID
  let parent_world :=
    if parent_idx != INVALID then s.world_transform.getD parent_idx Transform3d.identity
    else Transform3d.identity
  let newWorld := parent_world * s.local_transform.getD idx Transform3d.identity
  let s := { s with world_transform := s.world_transform.set idx newWorld }
  let parent_hidden :=
    if parent_idx != INVALID then s.effective_hidden.getD parent_idx false else false
  let new_hidden := parent_hidden || (s.flags.getD idx ({ hidden := false } : LayerFlags)).hidden
  let old_hidden := s.effective_hidden.getD idx false
  if new_hidden != old_hidden then
    let s := { s with effective_hidden := s.effective_hidden.set idx new_hidden }
    if new_hidden then (s, hid ++ [idx], unhid) else (s, hid, unhid ++ [idx])
  else (s, hid, unhid)

/-- One `OPACITY`-drain recompute step of `evaluate_into`. -/
def LayerStore.opacityStep (s : LayerStore) (idx : Nat) : LayerStore :=
  let parent_idx := s.parent.getD idx INVALID
  let parent_opacity :=
    if parent_idx != INVALID then s.effective_opacity.getD parent_idx 1 else 1
  let newOpacity := parent_opacity * s.local_opacity.getD idx 1
  { s with effective_opacity := s.effective_opacity.set idx newOpacity }

/-- `LayerStore::evaluate_into` / `evaluate` — rebuild the traversal order
if needed, then drain and recompute each channel in order and assemble the
change-set.  The caller's buffer is cleared before being refilled, so the
result carries no information from it and the state-passing translation
simply returns a fresh `FrameChanges`. -/
def LayerStore.evaluate (s : LayerStore) : FrameChanges × LayerStore :=
  let (s, topology_changed) :=
    if s.traversal_dirty then
      ({ s.rebuild_traversal_order with traversal_dirty := false }, true)
    else (s, false)
  let (dirty_transforms, d) := s.dirty.drain chTRANSFORM
  let s := { s with dirty := d }
  let (s, hidden, unhidden) :=
    dirty_transforms.foldl LayerStore.transformStep (s, [], [])
  let (dirty_opacities, d) := s.dirty.drain chOPACITY
  let s := { s with dirty := d }
  let s := dirty_opacities.foldl LayerStore.opacityStep s
  let (clips, d) := s.dirty.drain chCLIP
  let s := { s with dirty := d }
  let (contentChanges, d) := s.dirty.drain chCONTENT
  let s := { s with dirty := d }
  let (_topo, d) := s.dirty.drain chTOPOLOGY
  let s := { s with dirty := d }
  ({ transforms := dirty_transforms, opacities := dirty_opacities
     clips, content := contentChanges, hidden, unhidden
     added := s.pending_added, removed := s.pending_removed, topology_changed },
   { s with pending_added := [], pending_removed := [] })

/-! ## Well-formedness of trace-event field values

The Rust structs carry machine integers; the `Nat` embedding needs their
ranges spelled out for the codec round trip. -/

/-- An `Option<u64>` value in range. -/
def optU64wf : Option Nat → Bool
  | some v => v < 2 ^ 64
  | none => true

/-- `FrameTickEvent` field ranges. -/
def FrameTickEvent.wf (e : FrameTickEvent) : Bool :=
  e.frame_index < 2 ^ 64 && e.output < 2 ^ 32 && e.now < 2 ^ 64
    && optU64wf e.predicted_present && optU64wf e.refresh_interval

/-- `FramePlanEvent` field ranges. -/
def FramePlanEvent.wf (e : FramePlanEvent) : Bool :=
  e.frame_index < 2 ^ 64 && e.output < 2 ^ 32 && e.semantic_time < 2 ^ 64
    && optU64wf e.present_time && e.commit_deadline < 2 ^ 64
    && e.pipeline_depth < 2 ^ 8 && e.safety_margin_ticks < 2 ^ 64

/-- `PhaseBeginEvent` field ranges. -/
def PhaseBeginEvent.wf (e : PhaseBeginEvent) : Bool :=
  e.frame_index < 2 ^ 64 && e.timestamp < 2 ^ 64

/-- `PhaseEndEvent` field ranges. -/
def PhaseEndEvent.wf (e : PhaseEndEvent) : Bool :=
  e.frame_index < 2 ^ 64 && e.timestamp < 2 ^ 64

/-- `SubmitEvent` field ranges. -/
def SubmitEvent.wf (e : SubmitEvent) : Bool :=
  e.frame_index < 2 ^ 64 && e.submitted_at < 2 ^ 64 && optU64wf e.expected_present

/-- `PresentFeedbackEvent` field ranges. -/
def PresentFeedbackEvent.wf (e : PresentFeedbackEvent) : Bool :=
  e.frame_index < 2 ^ 64 && optU64wf e.actual_present

/-- `FrameSummary` field ranges. -/
def FrameSummary.wf (s : FrameSummary) : Bool :=
  s.frame_index < 2 ^ 64 && s.output < 2 ^ 32 && s.now < 2 ^ 64
    && optU64wf s.present_time && s.semantic_time < 2 ^ 64 && s.deadline < 2 ^ 64
    && s.pipeline_depth < 2 ^ 8 && s.plan_ticks < 2 ^ 64 && s.eval_ticks < 2 ^ 64
    && s.render_ticks < 2 ^ 64 && s.submit_ticks < 2 ^ 64

/-! ## Concrete fixtures used by the counterexample theorems -/

/-- `Transform3d::from_translation(10.0, 0.0, 0.0)`. -/
def exT : Transform3d := Transform3d.from_translation 10 0 0

/-- `Transform3d::from_translation(0.0, 5.0, 0.0)`. -/
def exL : Transform3d := Transform3d.from_translation 0 5 0

/-- Create three layers R (slot 0), A (slot 1), C (slot 2). -/
def exCreateR : LayerId × LayerStore := LayerStore.new.create_layer

/-- Second layer. -/
def exCreateA : LayerId × LayerStore := exCreateR.2.create_layer

/-- Third layer. -/
def exCreateC : LayerId × LayerStore := exCreateA.2.create_layer

/-- `set_transform(R, T(10,0,0)); add_child(R, A); set_transform(C, T(0,5,0))`,
then a first `evaluate` that settles every world transform. -/
def exEval1 : FrameChanges × LayerStore :=
  (((exCreateC.2.set_transform exCreateR.1 exT).add_child exCreateR.1
    exCreateA.1).set_transform exCreateC.1 exL).evaluate

/-- `insert_before(C, A)` — the root C (with local transform `T(0,5,0)`)
becomes a child of R (world transform `T(10,0,0)`) in front of A. -/
def exAfterInsert : LayerStore := exEval1.2.insert_before exCreateC.1 exCreateA.1

/-- The `evaluate` following the `insert_before`. -/
def exEval2 : FrameChanges × LayerStore := exAfterInsert.evaluate

/-- A feedback with `missed_deadline = Some(true)` (values as in the
`pipeline_depth_increases_after_misses` test of `scheduler.rs`). -/
def exMiss : PresentFeedback :=
  { submitted_at := 2000, build_start := 1000, expected_present := none
    actual_present := none, missed_deadline := some true }

/-- The macOS profile with `initial_depth = 1` and
`Adaptive{miss_threshold: 1, recovery_threshold: 10}`. -/
def exCfgK1 : SchedulerConfig :=
  { initial_depth := 1, min_depth := 1, max_depth := 3
    ema_alpha := 1/5, safety_multiplier := 3/2, nominal_latency := 0
    degradation_policy := .adaptive 1 10 }

/-- A pacing-only tick whose `now` is one below `u64::MAX`. -/
def exTickOverflow : FrameTick :=
  { now := u64Max - 1, predicted_present := none, refresh_interval := none
    confidence := .pacingOnly, frame_index := 0, output := 0
    prev_actual_present := none }

/-- The web profile with a `nominal_latency` of 5 ticks. -/
def exCfgLat5 : SchedulerConfig :=
  { SchedulerConfig.web with nominal_latency := 5 }

/-- Hints with no desired present time. -/
def exHints : PresentHints := { desired_present := none, latest_commit := 0 }

/-! ## Codec lemmas -/

theorem toLE_length : ∀ w v : Nat, (toLE w v).length = w
  | 0, _ => rfl
  | w + 1, v => by simp [toLE, toLE_length w]

theorem fromLE_toLE : ∀ w v : Nat, v < 256 ^ w → fromLE (toLE w v) = v
  | 0, v, h => by
    simp only [pow_zero, Nat.lt_one_iff] at h
    simp [toLE, fromLE, h]
  | w + 1, v, h => by
    have hdiv : v / 256 < 256 ^ w := by
      rw [Nat.div_lt_iff_lt_mul (by norm_num)]
      calc v < 256 ^ (w + 1) := h
        _ = 256 ^ w * 256 := by ring
    simp only [toLE, fromLE, List.foldr_cons]
    rw [show List.foldr (fun b acc => b + 256 * acc) 0 (toLE w (v / 256)) =
      fromLE (toLE w (v / 256)) from rfl, fromLE_toLE w (v / 256) hdiv]
    omega

theorem readLE_encode (w v : Nat) (rest : List Nat) (h : v < 256 ^ w) :
    readLE w (toLE w v ++ rest) = some (v, rest) := by
  have hlen : (toLE w v ++ rest).length = w + rest.length := by
    simp [toLE_length]
  unfold readLE
  rw [hlen, if_neg (by omega)]
  rw [List.take_left' (toLE_length w v), List.drop_left' (toLE_length w v),
    fromLE_toLE w v h]

theorem pow256_8 : (256 : Nat) ^ 8 = 2 ^ 64 := by norm_num

theorem pow256_4 : (256 : Nat) ^ 4 = 2 ^ 32 := by norm_num

theorem readOptU64_encode (o : Option Nat) (rest : List Nat) (h : optU64wf o = true) :
    readOptU64 (encOptU64 o ++ rest) = some (o, rest) := by
  cases o with
  | some v =>
    simp only [optU64wf, decide_eq_true_eq] at h
    have h' : v < 256 ^ 8 := pow256_8 ▸ h
    simp [encOptU64, readOptU64, readU8, readLE_encode 8 v rest h']
  | none =>
    have h' : 0 < 256 ^ 8 := by positivity
    simp [encOptU64, readOptU64, readU8, readLE_encode 8 0 rest h']

theorem readOptBool_encode (o : Option Bool) (rest : List Nat) :
    readOptBool (encOptBool o ++ rest) = some (o, rest) := by
  rcases o with _ | _ | _ <;> simp [encOptBool, readOptBool, readU8]

theorem readConfidence_encode (c : TimingConfidence) (rest : List Nat) :
    readConfidence (confByte c :: rest) = some (c, rest) := by
  cases c <;> simp [confByte, readConfidence, readU8]

theorem readPhase_encode (p : PhaseKind) (rest : List Nat) :
    readPhase (phaseByte p :: rest) = some (p, rest) := by
  cases p <;> simp [phaseByte, readPhase, readU8]

theorem decodeAux_nil : ∀ fuel, decodeAux fuel [] = [] := by
  intro fuel
  cases fuel <;> simp [decodeAux, decodeNext, readU8]

theorem decode_single (bs : List Nat) (e : RecordedEvent)
    (h : decodeNext bs = some (e, [])) : decode bs = [e] := by
  cases bs with
  | nil => simp [decodeNext, readU8] at h
  | cons b t =>
    show decodeAux (b :: t).length (b :: t) = [e]
    rw [List.length_cons]
    unfold decodeAux
    rw [h]
    simp [decodeAux_nil]

theorem readU8_length {bs : List Nat} {v : Nat} {rest : List Nat}
    (h : readU8 bs = some (v, rest)) : rest.length + 1 = bs.length := by
  cases bs with
  | nil => simp [readU8] at h
  | cons b t =>
    simp only [readU8, Option.some.injEq, Prod.mk.injEq] at h
    rw [← h.2]
    simp

theorem readLE_length {w : Nat} {bs : List Nat} {v : Nat} {rest : List Nat}
    (h : readLE w bs = some (v, rest)) : rest.length + w = bs.length := by
  unfold readLE at h
  split at h
  · exact absurd h (by simp)
  · simp only [Option.some.injEq, Prod.mk.injEq] at h
    rw [← h.2]
    simp
    omega

theorem readOptU64_length {bs : List Nat} {o : Option Nat} {rest : List Nat}
    (h : readOptU64 bs = some (o, rest)) : rest.length + 9 = bs.length := by
  unfold readOptU64 at h
  cases h1 : readU8 bs with
  | none => rw [h1] at h; simp at h
  | some p =>
    obtain ⟨pres, bs1⟩ := p
    rw [h1] at h
    simp only [Option.bind_eq_bind, Option.some_bind] at h
    cases h2 : readLE 8 bs1 with
    | none => rw [h2] at h; simp at h
    | some q =>
      obtain ⟨v, bs2⟩ := q
      rw [h2] at h
      simp only [Option.bind_eq_bind, Option.some_bind, Option.pure_def, Option.some.injEq,
        Prod.mk.injEq] at h
      have l1 := readU8_length h1
      have l2 := readLE_length h2
      have hr : bs2 = rest := h.2
      subst hr
      omega

theorem readOptBool_length {bs : List Nat} {o : Option Bool} {rest : List Nat}
    (h : readOptBool bs = some (o, rest)) : rest.length + 1 = bs.length := by
  unfold readOptBool at h
  cases h1 : readU8 bs with
  | none => rw [h1] at h; simp at h
  | some p =>
    obtain ⟨v, bs1⟩ := p
    rw [h1] at h
    simp only [Option.bind_eq_bind, Option.some_bind, Option.pure_def, Option.some.injEq,
      Prod.mk.injEq] at h
    have l1 := readU8_length h1
    have hr : bs1 = rest := h.2
    subst hr
    omega

theorem readConfidence_length {bs : List Nat} {c : TimingConfidence} {rest : List Nat}
    (h : readConfidence bs = some (c, rest)) : rest.length + 1 = bs.length := by
  unfold readConfidence at h
  cases h1 : readU8 bs with
  | none => rw [h1] at h; simp at h
  | some p =>
    obtain ⟨v, bs1⟩ := p
    rw [h1] at h
    simp only [Option.bind_eq_bind, Option.some_bind, Option.pure_def, Option.some.injEq,
      Prod.mk.injEq] at h
    have l1 := readU8_length h1
    have hr : bs1 = rest := h.2
    subst hr
    omega

theorem readPhase_length {bs : List Nat} {p : PhaseKind} {rest : List Nat}
    (h : readPhase bs = some (p, rest)) : rest.length + 1 = bs.length := by
  unfold readPhase at h
  cases h1 : readU8 bs with
  | none => rw [h1] at h; simp at h
  | some q =>
    obtain ⟨v, bs1⟩ := q
    rw [h1] at h
    simp only [Option.bind_eq_bind, Option.some_bind, Option.pure_def, Option.some.injEq,
      Prod.mk.injEq] at h
    have l1 := readU8_length h1
    have hr : bs1 = rest := h.2
    subst hr
    omega

theorem decodeFrameTickP_length {bs : List Nat} {e : RecordedEvent} {rest : List Nat}
    (h : decodeFrameTickP bs = some (e, rest)) : rest.length + 39 = bs.length := by
  unfold decodeFrameTickP at h
  obtain ⟨⟨v0, bs0⟩, h0, h⟩ := Option.bind_eq_some.mp h
  obtain ⟨⟨v1, bs1⟩, h1, h⟩ := Option.bind_eq_some.mp h
  obtain ⟨⟨v2, bs2⟩, h2, h⟩ := Option.bind_eq_some.mp h
  obtain ⟨⟨v3, bs3⟩, h3, h⟩ := Option.bind_eq_some.mp h
  obtain ⟨⟨v4, bs4⟩, h4, h⟩ := Option.bind_eq_some.mp h
  obtain ⟨⟨v5, bs5⟩, h5, h⟩ := Option.bind_eq_some.mp h
  have hr : bs5 = rest := congrArg Prod.snd (Option.some.inj h)
  subst hr
  have l0 := readLE_length h0
  have l1 := readLE_length h1
  have l2 := readLE_length h2
  have l3 := readOptU64_length h3
  have l4 := readOptU64_length h4
  have l5 := readConfidence_length h5
  omega

theorem decodeFramePlanP_length {bs : List Nat} {e : RecordedEvent} {rest : List Nat}
    (h : decodeFramePlanP bs = some (e, rest)) : rest.length + 46 = bs.length := by
  unfold decodeFramePlanP at h
  obtain ⟨⟨v0, bs0⟩, h0, h⟩ := Option.bind_eq_some.mp h
  obtain ⟨⟨v1, bs1⟩, h1, h⟩ := Option.bind_eq_some.mp h
  obtain ⟨⟨v2, bs2⟩, h2, h⟩ := Option.bind_eq_some.mp h
  obtain ⟨⟨v3, bs3⟩, h3, h⟩ := Option.bind_eq_some.mp h
  obtain ⟨⟨v4, bs4⟩, h4, h⟩ := Option.bind_eq_some.mp h
  obtain ⟨⟨v5, bs5⟩, h5, h⟩ := Option.bind_eq_some.mp h
  obtain ⟨⟨v6, bs6⟩, h6, h⟩ := Option.bind_eq_some.mp h
  have hr : bs6 = rest := congrArg Prod.snd (Option.some.inj h)
  subst hr
  have l0 := readLE_length h0
  have l1 := readLE_length h1
  have l2 := readLE_length h2
  have l3 := readOptU64_length h3
  have l4 := readLE_length h4
  have l5 := readU8_length h5
  have l6 := readLE_length h6
  omega

theorem decodePhaseBeginP_length {bs : List Nat} {e : RecordedEvent} {rest : List Nat}
    (h : decodePhaseBeginP bs = some (e, rest)) : rest.length + 17 = bs.length := by
  unfold decodePhaseBeginP at h
  obtain ⟨⟨v0, bs0⟩, h0, h⟩ := Option.bind_eq_some.mp h
  obtain ⟨⟨v1, bs1⟩, h1, h⟩ := Option.bind_eq_some.mp h
  obtain ⟨⟨v2, bs2⟩, h2, h⟩ := Option.bind_eq_some.mp h
  have hr : bs2 = rest := congrArg Prod.snd (Option.some.inj h)
  subst hr
  have l0 := readLE_length h0
  have l1 := readPhase_length h1
  have l2 := readLE_length h2
  omega

theorem decodePhaseEndP_length {bs : List Nat} {e : RecordedEvent} {rest : List Nat}
    (h : decodePhaseEndP bs = some (e, rest)) : rest.length + 17 = bs.length := by
  unfold decodePhaseEndP at h
  obtain ⟨⟨v0, bs0⟩, h0, h⟩ := Option.bind_eq_some.mp h
  obtain ⟨⟨v1, bs1⟩, h1, h⟩ := Option.bind_eq_some.mp h
  obtain ⟨⟨v2, bs2⟩, h2, h⟩ := Option.bind_eq_some.mp h
  have hr : bs2 = rest := congrArg Prod.snd (Option.some.inj h)
  subst hr
  have l0 := readLE_length h0
  have l1 := readPhase_length h1
  have l2 := readLE_length h2
  omega

theorem decodeSubmitP_length {bs : List Nat} {e : RecordedEvent} {rest : List Nat}
    (h : decodeSubmitP bs = some (e, rest)) : rest.length + 25 = bs.length := by
  unfold decodeSubmitP at h
  obtain ⟨⟨v0, bs0⟩, h0, h⟩ := Option.bind_eq_some.mp h
  obtain ⟨⟨v1, bs1⟩, h1, h⟩ := Option.bind_eq_some.mp h
  obtain ⟨⟨v2, bs2⟩, h2, h⟩ := Option.bind_eq_some.mp h
  have hr : bs2 = rest := congrArg Prod.snd (Option.some.inj h)
  subst hr
  have l0 := readLE_length h0
  have l1 := readLE_length h1
  have l2 := readOptU64_length h2
  omega

theorem decodePresentFeedbackP_length {bs : List Nat} {e : RecordedEvent} {rest : List Nat}
    (h : decodePresentFeedbackP bs = some (e, rest)) : rest.length + 18 = bs.length := by
  unfold decodePresentFeedbackP at h
  obtain ⟨⟨v0, bs0⟩, h0, h⟩ := Option.bind_eq_some.mp h
  obtain ⟨⟨v1, bs1⟩, h1, h⟩ := Option.bind_eq_some.mp h
  obtain ⟨⟨v2, bs2⟩, h2, h⟩ := Option.bind_eq_some.mp h
  have hr : bs2 = rest := congrArg Prod.snd (Option.some.inj h)
  subst hr
  have l0 := readLE_length h0
  have l1 := readOptU64_length h1
  have l2 := readOptBool_length h2
  omega

theorem decodeFrameSummaryP_length {bs : List Nat} {e : RecordedEvent} {rest : List Nat}
    (h : decodeFrameSummaryP bs = some (e, rest)) : rest.length + 80 = bs.length := by
  unfold decodeFrameSummaryP at h
  obtain ⟨⟨v0, bs0⟩, h0, h⟩ := Option.bind_eq_some.mp h
  obtain ⟨⟨v1, bs1⟩, h1, h⟩ := Option.bind_eq_some.mp h
  obtain ⟨⟨v2, bs2⟩, h2, h⟩ := Option.bind_eq_some.mp h
  obtain ⟨⟨v3, bs3⟩, h3, h⟩ := Option.bind_eq_some.mp h
  obtain ⟨⟨v4, bs4⟩, h4, h⟩ := Option.bind_eq_some.mp h
  obtain ⟨⟨v5, bs5⟩, h5, h⟩ := Option.bind_eq_some.mp h
  obtain ⟨⟨v6, bs6⟩, h6, h⟩ := Option.bind_eq_some.mp h
  obtain ⟨⟨v7, bs7⟩, h7, h⟩ := Option.bind_eq_some.mp h
  obtain ⟨⟨v8, bs8⟩, h8, h⟩ := Option.bind_eq_some.mp h
  obtain ⟨⟨v9, bs9⟩, h9, h⟩ := Option.bind_eq_some.mp h
  obtain ⟨⟨v10, bs10⟩, h10, h⟩ := Option.bind_eq_some.mp h
  obtain ⟨⟨v11, bs11⟩, h11, h⟩ := Option.bind_eq_some.mp h
  obtain ⟨⟨v12, bs12⟩, h12, h⟩ := Option.bind_eq_some.mp h
  have hr : bs12 = rest := congrArg Prod.snd (Option.some.inj h)
  subst hr
  have l0 := readLE_length h0
  have l1 := readLE_length h1
  have l2 := readConfidence_length h2
  have l3 := readLE_length h3
  have l4 := readOptU64_length h4
  have l5 := readLE_length h5
  have l6 := readLE_length h6
  have l7 := readU8_length h7
  have l8 := readLE_length h8
  have l9 := readLE_length h9
  have l10 := readLE_length h10
  have l11 := readLE_length h11
  have l12 := readU8_length h12
  omega

theorem readLE_encode_nil (w v : Nat) (h : v < 256 ^ w) :
    readLE w (toLE w v) = some (v, []) := by
  simpa using readLE_encode w v [] h

theorem readOptU64_encode_nil (o : Option Nat) (h : optU64wf o = true) :
    readOptU64 (encOptU64 o) = some (o, []) := by
  simpa using readOptU64_encode o [] h

theorem readOptBool_encode_nil (o : Option Bool) :
    readOptBool (encOptBool o) = some (o, []) := by
  simpa using readOptBool_encode o []

theorem decodeNext_tag1 (payload : List Nat) :
    decodeNext (1 :: payload) = decodeFrameTickP payload := rfl

theorem decodeNext_tag2 (payload : List Nat) :
    decodeNext (2 :: payload) = decodeFramePlanP payload := rfl

theorem decodeNext_tag3 (payload : List Nat) :
    decodeNext (3 :: payload) = decodePhaseBeginP payload := rfl

theorem decodeNext_tag4 (payload : List Nat) :
    decodeNext (4 :: payload) = decodePhaseEndP payload := rfl

theorem decodeNext_tag5 (payload : List Nat) :
    decodeNext (5 :: payload) = decodeSubmitP payload := rfl

theorem decodeNext_tag6 (payload : List Nat) :
    decodeNext (6 :: payload) = decodePresentFeedbackP payload := rfl

theorem decodeNext_tag7 (payload : List Nat) :
    decodeNext (7 :: payload) = decodeFrameSummaryP payload := rfl

theorem decodeNext_tag8 (payload : List Nat) :
    decodeNext (8 :: payload) = decodeLayerChangesP payload := rfl

theorem decodeNext_tag9 (payload : List Nat) :
    decodeNext (9 :: payload) = decodeDamageRectsP payload := rfl

theorem decodeNext_encodeFrameTick (e : FrameTickEvent) (h : e.wf = true) :
    decodeNext (encodeFrameTick e) = some (.frameTick e, []) := by
  simp only [FrameTickEvent.wf, Bool.and_eq_true, decide_eq_true_eq] at h
  obtain ⟨⟨⟨⟨h1, h2⟩, h3⟩, h4⟩, h5⟩ := h
  simp only [encodeFrameTick, decodeNext_tag1, decodeFrameTickP, List.append_assoc, List.cons_append, List.nil_append,
    readLE_encode 8 e.frame_index _ (pow256_8 ▸ h1),
    readLE_encode 4 e.output _ (pow256_4 ▸ h2),
    readLE_encode 8 e.now _ (pow256_8 ▸ h3),
    readOptU64_encode e.predicted_present _ h4,
    readOptU64_encode e.refresh_interval _ h5,
    readConfidence_encode e.confidence,
    Option.bind_eq_bind, Option.some_bind, Option.pure_def]

theorem decodeNext_encodeFramePlan (e : FramePlanEvent) (h : e.wf = true) :
    decodeNext (encodeFramePlan e) = some (.framePlan e, []) := by
  simp only [FramePlanEvent.wf, Bool.and_eq_true, decide_eq_true_eq] at h
  obtain ⟨⟨⟨⟨⟨⟨h1, h2⟩, h3⟩, h4⟩, h5⟩, h6⟩, h7⟩ := h
  simp only [encodeFramePlan, decodeNext_tag2, decodeFramePlanP, List.append_assoc, List.cons_append, List.nil_append,
    readLE_encode 8 e.frame_index _ (pow256_8 ▸ h1),
    readLE_encode 4 e.output _ (pow256_4 ▸ h2),
    readLE_encode 8 e.semantic_time _ (pow256_8 ▸ h3),
    readOptU64_encode e.present_time _ h4,
    readLE_encode 8 e.commit_deadline _ (pow256_8 ▸ h5),
    readLE_encode_nil 8 e.safety_margin_ticks (pow256_8 ▸ h7),
    readU8, Option.bind_eq_bind, Option.some_bind, Option.pure_def]

theorem decodeNext_encodePhaseBegin (e : PhaseBeginEvent) (h : e.wf = true) :
    decodeNext (encodePhaseBegin e) = some (.phaseBegin e, []) := by
  simp only [PhaseBeginEvent.wf, Bool.and_eq_true, decide_eq_true_eq] at h
  obtain ⟨h1, h2⟩ := h
  simp only [encodePhaseBegin, decodeNext_tag3, decodePhaseBeginP, List.append_assoc, List.cons_append, List.nil_append,
    readLE_encode 8 e.frame_index _ (pow256_8 ▸ h1),
    readLE_encode_nil 8 e.timestamp (pow256_8 ▸ h2),
    readPhase_encode e.phase,
    Option.bind_eq_bind, Option.some_bind, Option.pure_def]

theorem decodeNext_encodePhaseEnd (e : PhaseEndEvent) (h : e.wf = true) :
    decodeNext (encodePhaseEnd e) = some (.phaseEnd e, []) := by
  simp only [PhaseEndEvent.wf, Bool.and_eq_true, decide_eq_true_eq] at h
  obtain ⟨h1, h2⟩ := h
  simp only [encodePhaseEnd, decodeNext_tag4, decodePhaseEndP, List.append_assoc, List.cons_append, List.nil_append,
    readLE_encode 8 e.frame_index _ (pow256_8 ▸ h1),
    readLE_encode_nil 8 e.timestamp (pow256_8 ▸ h2),
    readPhase_encode e.phase,
    Option.bind_eq_bind, Option.some_bind, Option.pure_def]

theorem decodeNext_encodeSubmit (e : SubmitEvent) (h : e.wf = true) :
    decodeNext (encodeSubmit e) = some (.submit e, []) := by
  simp only [SubmitEvent.wf, Bool.and_eq_true, decide_eq_true_eq] at h
  obtain ⟨⟨h1, h2⟩, h3⟩ := h
  simp only [encodeSubmit, decodeNext_tag5, decodeSubmitP, List.append_assoc, List.cons_append, List.nil_append,
    readLE_encode 8 e.frame_index _ (pow256_8 ▸ h1),
    readLE_encode 8 e.submitted_at _ (pow256_8 ▸ h2),
    readOptU64_encode_nil e.expected_present h3,
    Option.bind_eq_bind, Option.some_bind, Option.pure_def]

theorem decodeNext_encodePresentFeedback (e : PresentFeedbackEvent) (h : e.wf = true) :
    decodeNext (encodePresentFeedback e) = some (.presentFeedback e, []) := by
  simp only [PresentFeedbackEvent.wf, Bool.and_eq_true, decide_eq_true_eq] at h
  obtain ⟨h1, h2⟩ := h
  simp only [encodePresentFeedback, decodeNext_tag6, decodePresentFeedbackP, List.append_assoc, List.cons_append, List.nil_append,
    readLE_encode 8 e.frame_index _ (pow256_8 ▸ h1),
    readOptU64_encode e.actual_present _ h2,
    readOptBool_encode_nil e.missed_deadline,
    Option.bind_eq_bind, Option.some_bind, Option.pure_def]

theorem decodeNext_encodeFrameSummary (s : FrameSummary) (h : s.wf = true) :
    decodeNext (encodeFrameSummary s) = some (.frameSummary s, []) := by
  simp only [FrameSummary.wf, Bool.and_eq_true, decide_eq_true_eq] at h
  obtain ⟨⟨⟨⟨⟨⟨⟨⟨⟨⟨h1, h2⟩, h3⟩, h4⟩, h5⟩, h6⟩, h7⟩, h8⟩, h9⟩, h10⟩, h11⟩ := h
  simp only [encodeFrameSummary, decodeNext_tag7, List.append_assoc, List.cons_append,
    List.nil_append]
  unfold decodeFrameSummaryP
  refine Option.bind_eq_some.mpr ⟨_, readLE_encode 8 s.frame_index _ (pow256_8 ▸ h1), ?_⟩
  refine Option.bind_eq_some.mpr ⟨_, readLE_encode 4 s.output _ (pow256_4 ▸ h2), ?_⟩
  refine Option.bind_eq_some.mpr ⟨_, readConfidence_encode s.confidence _, ?_⟩
  refine Option.bind_eq_some.mpr ⟨_, readLE_encode 8 s.now _ (pow256_8 ▸ h3), ?_⟩
  refine Option.bind_eq_some.mpr ⟨_, readOptU64_encode s.present_time _ h4, ?_⟩
  refine Option.bind_eq_some.mpr ⟨_, readLE_encode 8 s.semantic_time _ (pow256_8 ▸ h5), ?_⟩
  refine Option.bind_eq_some.mpr ⟨_, readLE_encode 8 s.deadline _ (pow256_8 ▸ h6), ?_⟩
  refine Option.bind_eq_some.mpr ⟨_, rfl, ?_⟩
  refine Option.bind_eq_some.mpr ⟨_, readLE_encode 8 s.plan_ticks _ (pow256_8 ▸ h8), ?_⟩
  refine Option.bind_eq_some.mpr ⟨_, readLE_encode 8 s.eval_ticks _ (pow256_8 ▸ h9), ?_⟩
  refine Option.bind_eq_some.mpr ⟨_, readLE_encode 8 s.render_ticks _ (pow256_8 ▸ h10), ?_⟩
  refine Option.bind_eq_some.mpr ⟨_, readLE_encode 8 s.submit_ticks _ (pow256_8 ▸ h11), ?_⟩
  refine Option.bind_eq_some.mpr ⟨_, rfl, ?_⟩
  cases hm : s.missed_deadline <;> simp [hm] <;> rw [← hm]

theorem decodeNext_encodeLayerChanges (fi n : Nat) (hfi : fi < 2 ^ 64)
    (hn : n < 2 ^ 32) :
    decodeNext (encodeLayerChanges fi n) = some (.layerChangesCount fi n, []) := by
  have hmin : min n (2 ^ 32 - 1) = n := by omega
  simp only [encodeLayerChanges, decodeNext_tag8, decodeLayerChangesP, List.append_assoc,
    List.cons_append, List.nil_append,
    readLE_encode 8 fi _ (pow256_8 ▸ hfi),
    readLE_encode_nil 4 n (pow256_4 ▸ hn),
    Option.bind_eq_bind, Option.some_bind, Option.pure_def, hmin]

theorem decodeNext_encodeDamageRects (fi n : Nat) (hfi : fi < 2 ^ 64)
    (hn : n < 2 ^ 32) :
    decodeNext (encodeDamageRects fi n) = some (.damageRectsCount fi n, []) := by
  have hmin : min n (2 ^ 32 - 1) = n := by omega
  simp only [encodeDamageRects, decodeNext_tag9, decodeDamageRectsP, List.append_assoc,
    List.cons_append, List.nil_append,
    readLE_encode 8 fi _ (pow256_8 ▸ hfi),
    readLE_encode_nil 4 n (pow256_4 ▸ hn),
    Option.bind_eq_bind, Option.some_bind, Option.pure_def, hmin]

theorem decodeLayerChangesP_length {bs : List Nat} {e : RecordedEvent} {rest : List Nat}
    (h : decodeLayerChangesP bs = some (e, rest)) : rest.length + 12 = bs.length := by
  unfold decodeLayerChangesP at h
  obtain ⟨⟨v0, bs0⟩, h0, h⟩ := Option.bind_eq_some.mp h
  obtain ⟨⟨v1, bs1⟩, h1, h⟩ := Option.bind_eq_some.mp h
  have hr : bs1 = rest := congrArg Prod.snd (Option.some.inj h)
  subst hr
  have l0 := readLE_length h0
  have l1 := readLE_length h1
  omega

theorem decodeDamageRectsP_length {bs : List Nat} {e : RecordedEvent} {rest : List Nat}
    (h : decodeDamageRectsP bs = some (e, rest)) : rest.length + 12 = bs.length := by
  unfold decodeDamageRectsP at h
  obtain ⟨⟨v0, bs0⟩, h0, h⟩ := Option.bind_eq_some.mp h
  obtain ⟨⟨v1, bs1⟩, h1, h⟩ := Option.bind_eq_some.mp h
  have hr : bs1 = rest := congrArg Prod.snd (Option.some.inj h)
  subst hr
  have l0 := readLE_length h0
  have l1 := readLE_length h1
  omega

theorem decodeNext_some_length {b : Nat} {t : List Nat} {e : RecordedEvent}
    {rest : List Nat} (h : decodeNext (b :: t) = some (e, rest)) :
    1 ≤ b ∧ b ≤ 9 ∧ rest.length + payloadLen b = t.length := by
  rcases b with _|_|_|_|_|_|_|_|_|_|b
  · simp [decodeNext, readU8] at h
  · exact ⟨by norm_num, by norm_num, by
      rw [decodeNext_tag1] at h
      simpa [payloadLen] using decodeFrameTickP_length h⟩
  · exact ⟨by norm_num, by norm_num, by
      rw [decodeNext_tag2] at h
      simpa [payloadLen] using decodeFramePlanP_length h⟩
  · exact ⟨by norm_num, by norm_num, by
      rw [decodeNext_tag3] at h
      simpa [payloadLen] using decodePhaseBeginP_length h⟩
  · exact ⟨by norm_num, by norm_num, by
      rw [decodeNext_tag4] at h
      simpa [payloadLen] using decodePhaseEndP_length h⟩
  · exact ⟨by norm_num, by norm_num, by
      rw [decodeNext_tag5] at h
      simpa [payloadLen] using decodeSubmitP_length h⟩
  · exact ⟨by norm_num, by norm_num, by
      rw [decodeNext_tag6] at h
      simpa [payloadLen] using decodePresentFeedbackP_length h⟩
  · exact ⟨by norm_num, by norm_num, by
      rw [decodeNext_tag7] at h
      simpa [payloadLen] using decodeFrameSummaryP_length h⟩
  · exact ⟨by norm_num, by norm_num, by
      rw [decodeNext_tag8] at h
      simpa [payloadLen] using decodeLayerChangesP_length h⟩
  · exact ⟨by norm_num, by norm_num, by
      rw [decodeNext_tag9] at h
      simpa [payloadLen] using decodeDamageRectsP_length h⟩
  · simp [decodeNext, readU8] at h

/-- **C6.** For every trace event of every kind, decoding the bytes the
recorder writes for it yields exactly the one event preserved by the binary
schema (the rich layer-change and damage-rect records keep the frame index
and the element count only), and decoding the empty buffer yields no
events.  The `wf` hypotheses say the `u64`/`u32`/`u8` fields carry values
in their machine ranges, which the `Nat` embedding leaves implicit. -/
theorem c6_recorder_round_trip :
    (∀ e : FrameTickEvent, e.wf = true →
      decode (encodeFrameTick e) = [.frameTick e]) ∧
    (∀ e : FramePlanEvent, e.wf = true →
      decode (encodeFramePlan e) = [.framePlan e]) ∧
    (∀ e : PhaseBeginEvent, e.wf = true →
      decode (encodePhaseBegin e) = [.phaseBegin e]) ∧
    (∀ e : PhaseEndEvent, e.wf = true →
      decode (encodePhaseEnd e) = [.phaseEnd e]) ∧
    (∀ e : SubmitEvent, e.wf = true →
      decode (encodeSubmit e) = [.submit e]) ∧
    (∀ e : PresentFeedbackEvent, e.wf = true →
      decode (encodePresentFeedback e) = [.presentFeedback e]) ∧
    (∀ s : FrameSummary, s.wf = true →
      decode (encodeFrameSummary s) = [.frameSummary s]) ∧
    (∀ fi n, fi < 2 ^ 64 → n < 2 ^ 32 →
      decode (encodeLayerChanges fi n) = [.layerChangesCount fi n]) ∧
    (∀ fi n, fi < 2 ^ 64 → n < 2 ^ 32 →
      decode (encodeDamageRects fi n) = [.damageRectsCount fi n]) ∧
    decode [] = [] :=
  ⟨fun e h => decode_single _ _ (decodeNext_encodeFrameTick e h),
   fun e h => decode_single _ _ (decodeNext_encodeFramePlan e h),
   fun e h => decode_single _ _ (decodeNext_encodePhaseBegin e h),
   fun e h => decode_single _ _ (decodeNext_encodePhaseEnd e h),
   fun e h => decode_single _ _ (decodeNext_encodeSubmit e h),
   fun e h => decode_single _ _ (decodeNext_encodePresentFeedback e h),
   fun s h => decode_single _ _ (decodeNext_encodeFrameSummary s h),
   fun fi n h1 h2 => decode_single _ _ (decodeNext_encodeLayerChanges fi n h1 h2),
   fun fi n h1 h2 => decode_single _ _ (decodeNext_encodeDamageRects fi n h1 h2),
   rfl⟩

/-- Witness for C6 at one concrete event of each kind. -/
theorem c6_recorder_round_trip_witness :
    decode (encodeFrameTick { frame_index := 7, output := 1, now := 1000000, predicted_present := some 1016667, refresh_interval := some 16666667, confidence := .predictive }) = [.frameTick { frame_index := 7, output := 1, now := 1000000, predicted_present := some 1016667, refresh_interval := some 16666667, confidence := .predictive }] ∧
    decode (encodeFramePlan { frame_index := 7, output := 1, semantic_time := 1016667, present_time := some 1016667, commit_deadline := 1014000, pipeline_depth := 2, safety_margin_ticks := 500 }) = [.framePlan { frame_index := 7, output := 1, semantic_time := 1016667, present_time := some 1016667, commit_deadline := 1014000, pipeline_depth := 2, safety_margin_ticks := 500 }] ∧
    decode (encodePhaseBegin { frame_index := 5, phase := .render, timestamp := 2000 }) = [.phaseBegin { frame_index := 5, phase := .render, timestamp := 2000 }] ∧
    decode (encodePhaseEnd { frame_index := 5, phase := .render, timestamp := 3000 }) = [.phaseEnd { frame_index := 5, phase := .render, timestamp := 3000 }] ∧
    decode (encodeSubmit { frame_index := 10, submitted_at := 5000, expected_present := some 6000 }) = [.submit { frame_index := 10, submitted_at := 5000, expected_present := some 6000 }] ∧
    decode (encodePresentFeedback { frame_index := 3, actual_present := none, missed_deadline := some true }) = [.presentFeedback { frame_index := 3, actual_present := none, missed_deadline := some true }] ∧
    decode (encodeFrameSummary { frame_index := 7, output := 1, confidence := .predictive, now := 1000000, present_time := some 1016667, semantic_time := 1016667, deadline := 1014000, pipeline_depth := 2, plan_ticks := 100, eval_ticks := 400, render_ticks := 1500, submit_ticks := 50, missed_deadline := false }) = [.frameSummary { frame_index := 7, output := 1, confidence := .predictive, now := 1000000, present_time := some 1016667, semantic_time := 1016667, deadline := 1014000, pipeline_depth := 2, plan_ticks := 100, eval_ticks := 400, render_ticks := 1500, submit_ticks := 50, missed_deadline := false }] ∧
    decode (encodeLayerChanges 42 2) = [.layerChangesCount 42 2] ∧
    decode (encodeDamageRects 42 3) = [.damageRectsCount 42 3] ∧
    decode [] = [] :=
  ⟨c6_recorder_round_trip.1 _ (by decide),
   c6_recorder_round_trip.2.1 _ (by decide),
   c6_recorder_round_trip.2.2.1 _ (by decide),
   c6_recorder_round_trip.2.2.2.1 _ (by decide),
   c6_recorder_round_trip.2.2.2.2.1 _ (by decide),
   c6_recorder_round_trip.2.2.2.2.2.1 _ (by decide),
   c6_recorder_round_trip.2.2.2.2.2.2.1 _ (by decide),
   c6_recorder_round_trip.2.2.2.2.2.2.2.1 42 2 (by decide) (by decide),
   c6_recorder_round_trip.2.2.2.2.2.2.2.2.1 42 3 (by decide) (by decide),
   c6_recorder_round_trip.2.2.2.2.2.2.2.2.2⟩

/-- **C10.** The decoder is total on arbitrary bytes: a successful
`next()` always consumes the tag byte plus the tag's fixed payload (so
iteration strictly shrinks the input and never reads out of bounds), a
known-tag record whose payload is truncated yields `None`, and a `None`
from `next()` ends the iteration with the partial record discarded. -/
theorem c10_decoder_total_on_arbitrary_bytes :
    (∀ (bs : List Nat) (e : RecordedEvent) (rest : List Nat),
      decodeNext bs = some (e, rest) → rest.length < bs.length) ∧
    (∀ (t : Nat) (payload : List Nat), 1 ≤ t → t ≤ 9 →
      payload.length < payloadLen t → decodeNext (t :: payload) = none) ∧
    (∀ bs : List Nat, decodeNext bs = none → decode bs = []) := by
  refine ⟨?_, ?_, ?_⟩
  · intro bs e rest h
    cases bs with
    | nil => simp [decodeNext, readU8] at h
    | cons b t =>
      have := (decodeNext_some_length h).2.2
      simp only [List.length_cons]
      omega
  · intro t payload h1 h9 hshort
    cases h : decodeNext (t :: payload) with
    | none => rfl
    | some p =>
      obtain ⟨e, rest⟩ := p
      have := (decodeNext_some_length h).2.2
      omega
  · intro bs h
    cases bs with
    | nil => rfl
    | cons b t =>
      show decodeAux (b :: t).length (b :: t) = []
      rw [List.length_cons]
      unfold decodeAux
      rw [h]

/-- Witness for C10: a phase-begin record truncated after two payload
bytes decodes to nothing, and a successful decode of a full record
consumes it. -/
theorem c10_decoder_total_witness :
    decodeNext [3, 9, 9] = none ∧ decode [3, 9, 9] = [] ∧
    ([] : List Nat).length < [3, 0, 0, 0, 0, 0, 0, 0, 0, 0, 0, 0, 0, 0, 0, 0, 0,
      0].length := by
  have h1 := c10_decoder_total_on_arbitrary_bytes.2.1 3 [9, 9] (by decide) (by decide)
    (by decide)
  refine ⟨h1, c10_decoder_total_on_arbitrary_bytes.2.2 [3, 9, 9] h1, ?_⟩
  exact c10_decoder_total_on_arbitrary_bytes.1 [3, 0, 0, 0, 0, 0, 0, 0, 0, 0, 0, 0, 0,
    0, 0, 0, 0, 0] (.phaseBegin { frame_index := 0, phase := .plan, timestamp := 0 }) []
    (by decide)

/-! ## Timing-model theorems -/

/-- **C5.** `PresentFeedback::new` reports `missed_deadline =
Some(actual_present > desired_present)` when both are known, and
`Some(submitted_at > latest_commit)` in every other case;
`PendingFeedback::resolve(None)` produces exactly the commit-based
verdict. -/
theorem c5_present_feedback_missed_deadline :
    (∀ (hints : PresentHints) (build submitted actual expected : Nat),
      hints.desired_present = some expected →
      (PresentFeedback.new hints build submitted (some actual)).missed_deadline =
        some (decide (expected < actual))) ∧
    (∀ (hints : PresentHints) (build submitted : Nat) (actual : Option Nat),
      actual = none ∨ hints.desired_present = none →
      (PresentFeedback.new hints build submitted actual).missed_deadline =
        some (decide (hints.latest_commit < submitted))) ∧
    (∀ p : PendingFeedback,
      (p.resolve none).missed_deadline =
        some (decide (p.hints.latest_commit < p.submitted_at))) := by
  refine ⟨?_, ?_, ?_⟩
  · intro hints build submitted actual expected hd
    simp [PresentFeedback.new, hd]
  · intro hints build submitted actual h
    rcases h with h | h
    · subst h
      cases hd : hints.desired_present <;> simp [PresentFeedback.new, hd]
    · cases actual <;> simp [PresentFeedback.new, h]
  · intro p
    cases hd : p.hints.desired_present <;>
      simp [PendingFeedback.resolve, PresentFeedback.new, hd]

/-- Witness for C5 at the values of the `timing.rs` unit tests. -/
theorem c5_present_feedback_witness :
    (PresentFeedback.new { desired_present := some 2000000, latest_commit := 1800000 }
      1700000 1750000 (some 2100000)).missed_deadline = some (decide ((2000000 : Nat) < 2100000)) ∧
    (PresentFeedback.new { desired_present := some 2000000, latest_commit := 1800000 }
      1700000 1900000 none).missed_deadline = some (decide ((1800000 : Nat) < 1900000)) ∧
    (PendingFeedback.resolve { hints := { desired_present := some 2000000, latest_commit := 1800000 }, build_start := 1700000, submitted_at := 1750000 } none).missed_deadline = some (decide ((1800000 : Nat) < 1750000)) :=
  ⟨c5_present_feedback_missed_deadline.1 _ 1700000 1750000 2100000 2000000 rfl,
   c5_present_feedback_missed_deadline.2.1 _ 1700000 1900000 none (Or.inl rfl),
   c5_present_feedback_missed_deadline.2.2 _⟩

/-! ## Clock theorems

Spot checks that `fl64` is genuine binary64 rounding, on values whose
IEEE-754 results are classical: `fl(0.1) = 3602879701896397 · 2⁻⁵⁵`,
`fl(2⁵³ + 1) = 2⁵³` (tie to even), `fl(2⁵³ + 3) = 2⁵³ + 4`,
`fl(10¹⁶ + 1) = 10¹⁶`, and rounding is symmetric under negation. -/

/-- `fl64` agrees with binary64 on the classical witness `0.1`. -/
theorem fl64_tenth : fl64 (1 / 10) = 3602879701896397 / 2 ^ 55 := by decide

/-- `fl64` ties to even: `2 ^ 53 + 1` is halfway and rounds down,
`2 ^ 53 + 3` is halfway and rounds up. -/
theorem fl64_ties_to_even :
    fl64 (2 ^ 53 + 1) = 2 ^ 53 ∧ fl64 (2 ^ 53 + 3) = 2 ^ 53 + 4 := by
  exact ⟨by decide, by decide⟩

/-- `fl64` on the magnitudes of the C8 counterexample: `10 ^ 16` is
representable, `10 ^ 16 + 1` ties and rounds to even (`10 ^ 16`), and
negation is symmetric. -/
theorem fl64_near_ten_pow_sixteen :
    fl64 (10 ^ 16) = 10 ^ 16 ∧ fl64 (10 ^ 16 + 1) = 10 ^ 16 ∧
      fl64 (-(1 / 10)) = -(3602879701896397 / 2 ^ 55) := by
  exact ⟨by decide, by decide, by decide⟩

/-- **C8, counterexample.** The claimed "`media_time_at(H)` returns
`Some(M)` exactly" fails for the actual `f64` arithmetic: on a fresh
clock with `initial_rate = 1e16`, after `update(1, 1.0)` the stored
offset is `fl(1 − fl(10¹⁶ · 1)) = −10¹⁶` (the exact difference
`−(10¹⁶ − 1)` lies halfway between the adjacent binary64 values
`−(10¹⁶ − 2)` and `−10¹⁶` and ties to the even significand), so
`media_time_at(1) = fl(10¹⁶ + (−10¹⁶)) = 0`, not `1`. -/
theorem c8_f64_rounding_counterexample :
    ((AffineClockF.new (10 ^ 16) (1 / 10) (1 / 10)).update 1 1).media_time_at 1 =
        some 0 ∧
      ((AffineClockF.new (10 ^ 16) (1 / 10) (1 / 10)).update 1 1).media_time_at 1 ≠
        some 1 := by
  exact ⟨by decide, by decide⟩

/-- **C8 (amended).** On a freshly constructed (or reset) clock, one call
to `update(H, M)` fixes the offset to `media_time − rate · host_ticks` as
computed in `f64`, so `media_time_at(H)` returns
`Some(fl(fl(rate·H) + fl(M − fl(rate·H))))`; with the `f64` arithmetic
idealized as exact rational arithmetic this is exactly `Some(M)` — the
mapping passes through the observed point — but under IEEE-754 binary64
rounding it need not equal `M` (see the counterexample above). -/
theorem c8_affine_clock_first_update :
    ∀ (initial_rate rate_alpha offset_alpha : ℚ) (H : Nat) (M : ℚ)
      (c : AffineClock) (cf : AffineClockF),
      ((AffineClock.new initial_rate rate_alpha offset_alpha).update H M).media_time_at
          H = some M ∧
      ((c.reset).update H M).media_time_at H = some M ∧
      ((AffineClockF.new initial_rate rate_alpha offset_alpha).update H M).media_time_at
          H =
        some (fadd (fmul (fl64 initial_rate) (fl64 (H : ℚ)))
          (fsub (fl64 M) (fmul (fl64 initial_rate) (fl64 (H : ℚ))))) ∧
      ((cf.reset).update H M).media_time_at H =
        some (fadd (fmul cf.rate (fl64 (H : ℚ)))
          (fsub (fl64 M) (fmul cf.rate (fl64 (H : ℚ))))) := by
  intro r ra oa H M c cf
  refine ⟨?_, ?_, ?_, ?_⟩
  · simp only [AffineClock.new, AffineClock.update, AffineClock.media_time_at,
      Bool.false_eq_true, if_false, if_true, Option.some.injEq]
    ring
  · simp only [AffineClock.reset, AffineClock.update, AffineClock.media_time_at,
      Bool.false_eq_true, if_false, if_true, Option.some.injEq]
    ring
  · simp [AffineClockF.new, AffineClockF.update, AffineClockF.media_time_at]
  · simp [AffineClockF.reset, AffineClockF.update, AffineClockF.media_time_at]

/-! ## Scheduler theorems -/

/-- **C9.** `Scheduler::plan` never modifies scheduler state: the pipeline
depth, the build-cost EMA, the safety margin, and both consecutive
counters are unchanged by any `plan` call (the Rust method takes
`&mut self` but writes no field). -/
theorem c9_plan_does_not_mutate_scheduler :
    ∀ (s : Scheduler) (tick : FrameTick) (hints : PresentHints),
      ((s.plan tick hints).2.pipeline_depth = s.pipeline_depth) ∧
      ((s.plan tick hints).2.build_cost_ema = s.build_cost_ema) ∧
      ((s.plan tick hints).2.safety_margin_ticks = s.safety_margin_ticks) ∧
      ((s.plan tick hints).2.consecutive_misses = s.consecutive_misses) ∧
      ((s.plan tick hints).2.consecutive_hits = s.consecutive_hits) ∧
      ((s.plan tick hints).2 = s) :=
  fun _ _ _ => ⟨rfl, rfl, rfl, rfl, rfl, rfl⟩

/-- **C4 (amended).** For a `PacingOnly` tick, `plan` returns
`present_time = None` and `semantic_time = tick.now + nominal_latency` via
*checked* addition: on `u64` overflow the semantic time falls back to
`tick.now` (the source uses `checked_add(..).unwrap_or(tick.now)`, not a
saturating addition). -/
theorem c4_pacing_only_plan_checked_add (s : Scheduler) (tick : FrameTick)
    (hints : PresentHints) (hc : tick.confidence = .pacingOnly) :
    (s.plan tick hints).1.present_time = none ∧
    (s.plan tick hints).1.semantic_time =
      (if tick.now + s.config.nominal_latency ≤ u64Max then
        tick.now + s.config.nominal_latency
      else tick.now) := by
  simp only [Scheduler.plan, hc, checkedAdd]
  refine ⟨trivial, ?_⟩
  split <;> simp

/-- Witness for C4 (amended): the scenario-3 pacing-only frame of the
spec, `now = 1_000_000`, `nominal_latency = 16_000_000`. -/
theorem c4_pacing_only_plan_witness :
    ((Scheduler.new SchedulerConfig.web).plan
      { now := 1000000, predicted_present := none, refresh_interval := none,
        confidence := .pacingOnly, frame_index := 0, output := 0,
        prev_actual_present := none }
      { desired_present := none, latest_commit := 17000000 }).1.present_time = none ∧
    ((Scheduler.new SchedulerConfig.web).plan
      { now := 1000000, predicted_present := none, refresh_interval := none,
        confidence := .pacingOnly, frame_index := 0, output := 0,
        prev_actual_present := none }
      { desired_present := none, latest_commit := 17000000 }).1.semantic_time =
      (if 1000000 + (Scheduler.new SchedulerConfig.web).config.nominal_latency ≤ u64Max
        then 1000000 + (Scheduler.new SchedulerConfig.web).config.nominal_latency
        else 1000000) :=
  c4_pacing_only_plan_checked_add (Scheduler.new SchedulerConfig.web) _ _ rfl

/-- Counterexample to C4 as stated: with `now = u64::MAX - 1` and
`nominal_latency = 5`, the checked addition overflows and the plan's
semantic time is `u64::MAX - 1` (= `tick.now`), whereas the claimed
saturating addition would give `u64::MAX`. -/
theorem c4_pacing_only_not_saturating_counterexample :
    ((Scheduler.new exCfgLat5).plan exTickOverflow exHints).1.present_time = none ∧
    ((Scheduler.new exCfgLat5).plan exTickOverflow exHints).1.semantic_time =
      u64Max - 1 ∧
    specSaturatingAdd exTickOverflow.now exCfgLat5.nominal_latency = u64Max ∧
    u64Max - 1 ≠ u64Max := by
  refine ⟨rfl, by decide, by decide, by decide⟩

theorem observe_config (s : Scheduler) (fb : PresentFeedback) :
    (s.observe fb).config = s.config := by
  unfold Scheduler.observe
  dsimp only
  repeat' split
  all_goals rfl

theorem observe_miss_lt {s : Scheduler} {fb : PresentFeedback} {k r : Nat}
    (hp : s.config.degradation_policy = .adaptive k r)
    (hm : fb.missed_deadline = some true)
    (hlt : s.consecutive_misses + 1 < k) :
    (s.observe fb).pipeline_depth = s.pipeline_depth ∧
    (s.observe fb).consecutive_misses = s.consecutive_misses + 1 := by
  unfold Scheduler.observe
  dsimp only
  simp only [hp, hm]
  rw [if_neg (fun hcon => absurd hcon.1 (by omega))]
  exact ⟨rfl, rfl⟩

theorem observe_miss_ge {s : Scheduler} {fb : PresentFeedback} {k r : Nat}
    (hp : s.config.degradation_policy = .adaptive k r)
    (hm : fb.missed_deadline = some true)
    (hge : k ≤ s.consecutive_misses + 1)
    (hd : s.pipeline_depth < s.config.max_depth) :
    (s.observe fb).pipeline_depth = s.pipeline_depth + 1 ∧
    (s.observe fb).consecutive_misses = 0 := by
  unfold Scheduler.observe
  dsimp only
  simp only [hp, hm]
  rw [if_pos ⟨hge, hd⟩]
  exact ⟨rfl, rfl⟩

theorem observe_nonmiss_resets {s : Scheduler} {fb : PresentFeedback} {k r : Nat}
    (hp : s.config.degradation_policy = .adaptive k r)
    (hm : fb.missed_deadline = some false ∨ fb.missed_deadline = none) :
    (s.observe fb).consecutive_misses = 0 := by
  unfold Scheduler.observe
  dsimp only
  rcases hm with hm | hm <;> simp only [hp, hm]
  all_goals first | rfl | (split <;> rfl)

theorem observeList_cons (s : Scheduler) (fb : PresentFeedback)
    (rest : List PresentFeedback) :
    s.observeList (fb :: rest) = (s.observe fb).observeList rest := rfl

theorem missRun_below {k r : Nat} :
    ∀ (fbs : List PresentFeedback) (s : Scheduler),
      s.config.degradation_policy = .adaptive k r →
      (∀ fb ∈ fbs, fb.missed_deadline = some true) →
      s.consecutive_misses + fbs.length < k →
      (s.observeList fbs).pipeline_depth = s.pipeline_depth ∧
      (s.observeList fbs).consecutive_misses = s.consecutive_misses + fbs.length ∧
      (s.observeList fbs).config = s.config := by
  intro fbs
  induction fbs with
  | nil => intro s hp _ _; exact ⟨rfl, rfl, rfl⟩
  | cons fb rest ih =>
    intro s hp hall hlt
    have hm : fb.missed_deadline = some true := hall fb (List.mem_cons_self fb rest)
    have hstep := observe_miss_lt hp hm (by simp at hlt; omega)
    have hcfg := observe_config s fb
    have hrec := ih (s.observe fb) (hcfg ▸ hp)
      (fun fb2 h2 => hall fb2 (List.mem_cons_of_mem fb h2))
      (by rw [hstep.2]; simp at hlt ⊢; omega)
    rw [observeList_cons]
    refine ⟨hrec.1.trans hstep.1, ?_, hrec.2.2.trans hcfg⟩
    rw [hrec.2.1, hstep.2]
    simp
    omega

theorem missRun_exact {k r : Nat} :
    ∀ (fbs : List PresentFeedback) (s : Scheduler),
      s.config.degradation_policy = .adaptive k r →
      (∀ fb ∈ fbs, fb.missed_deadline = some true) →
      fbs ≠ [] →
      s.consecutive_misses + fbs.length = k →
      s.pipeline_depth < s.config.max_depth →
      (s.observeList fbs).pipeline_depth = s.pipeline_depth + 1 ∧
      (s.observeList fbs).consecutive_misses = 0 ∧
      (s.observeList fbs).config = s.config := by
  intro fbs
  induction fbs with
  | nil => intro s _ _ hne _ _; exact absurd rfl hne
  | cons fb rest ih =>
    intro s hp hall _ hcount hd
    have hm : fb.missed_deadline = some true := hall fb (List.mem_cons_self fb rest)
    have hcfg := observe_config s fb
    cases hr : rest with
    | nil =>
      subst hr
      have hge : k ≤ s.consecutive_misses + 1 := by simp at hcount; omega
      have hstep := observe_miss_ge hp hm hge hd
      exact ⟨hstep.1, hstep.2, hcfg⟩
    | cons fb2 rest2 =>
      have hlen : rest.length = rest2.length + 1 := by rw [hr]; rfl
      have hlt : s.consecutive_misses + 1 < k := by simp at hcount; omega
      have hstep := observe_miss_lt hp hm hlt
      rw [← hr]
      have hrec := ih (s.observe fb) (hcfg ▸ hp)
        (fun fb3 h3 => hall fb3 (List.mem_cons_of_mem fb h3))
        (by rw [hr]; simp)
        (by rw [hstep.2]; simp at hcount ⊢; omega)
        (by rw [hstep.1, hcfg]; exact hd)
      rw [observeList_cons]
      refine ⟨?_, hrec.2.1, hrec.2.2.trans hcfg⟩
      rw [hrec.1, hstep.1]

/-- **C3 (amended).** With `Adaptive{miss_threshold = k ≥ 1, ...}`, from a
state with a zero consecutive-miss counter and depth `d < max_depth`,
exactly `k` consecutive `missed_deadline = Some(true)` observations advance
the depth to `d + 1` and reset the miss counter, so fewer than `k` further
consecutive misses leave the depth at `d + 1` (which also means that for
`k ≥ 2` the `(k+1)`-th miss does not advance it again; for `k = 1` the very
next miss advances again whenever `d + 1 < max_depth` — see the
counterexample); fewer than `k` misses leave the depth unchanged, and any
interleaved `Some(false)` or `None` observation resets the
consecutive-miss counter. -/
theorem c3_adaptive_miss_streak_advances_depth (s : Scheduler) (k r : Nat)
    (hp : s.config.degradation_policy = .adaptive k r)
    (hk : 1 ≤ k)
    (h0 : s.consecutive_misses = 0)
    (hd : s.pipeline_depth < s.config.max_depth) :
    (∀ fbs : List PresentFeedback,
      (∀ fb ∈ fbs, fb.missed_deadline = some true) → fbs.length = k →
      (s.observeList fbs).pipeline_depth = s.pipeline_depth + 1 ∧
      (s.observeList fbs).consecutive_misses = 0 ∧
      (∀ fbs2 : List PresentFeedback,
        (∀ fb ∈ fbs2, fb.missed_deadline = some true) → fbs2.length < k →
        ((s.observeList fbs).observeList fbs2).pipeline_depth =
          s.pipeline_depth + 1)) ∧
    (∀ fbs : List PresentFeedback,
      (∀ fb ∈ fbs, fb.missed_deadline = some true) → fbs.length < k →
      (s.observeList fbs).pipeline_depth = s.pipeline_depth) ∧
    (∀ (s2 : Scheduler) (fb : PresentFeedback),
      s2.config.degradation_policy = .adaptive k r →
      fb.missed_deadline = some false ∨ fb.missed_deadline = none →
      (s2.observe fb).consecutive_misses = 0) := by
  refine ⟨?_, ?_, ?_⟩
  · intro fbs hall hlen
    have hne : fbs ≠ [] := by
      intro hnil
      rw [hnil] at hlen
      simp at hlen
      omega
    have hmain := missRun_exact fbs s hp hall hne (by omega) hd
    refine ⟨hmain.1, hmain.2.1, ?_⟩
    intro fbs2 hall2 hlen2
    have hrec := missRun_below fbs2 (s.observeList fbs) (hmain.2.2 ▸ hp) hall2
      (by rw [hmain.2.1]; omega)
    rw [hrec.1, hmain.1]
  · intro fbs hall hlen
    exact (missRun_below fbs s hp hall (by omega)).1
  · intro s2 fb hp2 hm
    exact observe_nonmiss_resets hp2 hm

/-- Witness for C3 (amended): the macOS profile (`miss_threshold = 3`,
depth 2 of max 3); three misses advance the depth, two do not. -/
theorem c3_adaptive_miss_streak_witness :
    ((Scheduler.new SchedulerConfig.macos).observeList
        [exMiss, exMiss, exMiss]).pipeline_depth =
      (Scheduler.new SchedulerConfig.macos).pipeline_depth + 1 ∧
    ((Scheduler.new SchedulerConfig.macos).observeList
        [exMiss, exMiss]).pipeline_depth =
      (Scheduler.new SchedulerConfig.macos).pipeline_depth := by
  have h := c3_adaptive_miss_streak_advances_depth (Scheduler.new SchedulerConfig.macos)
    3 10 rfl (by norm_num) rfl (by decide)
  exact ⟨(h.1 [exMiss, exMiss, exMiss] (by decide) rfl).1,
    h.2.1 [exMiss, exMiss] (by decide) (by norm_num)⟩

/-- Counterexample to C3 as stated: with `miss_threshold = 1` and depths
`1 < 3`, the first miss advances the depth from 1 to 2 and resets the
counter, but the `(k+1)`-th (= second) consecutive miss advances it again
to 3 — the claim's parenthetical "the (k+1)-th miss does not advance it
again" fails for `k = 1`. -/
theorem c3_threshold_one_counterexample :
    ((Scheduler.new exCfgK1).observe exMiss).pipeline_depth =
      (Scheduler.new exCfgK1).pipeline_depth + 1 ∧
    (((Scheduler.new exCfgK1).observe exMiss).observe exMiss).pipeline_depth =
      (Scheduler.new exCfgK1).pipeline_depth + 2 := by
  exact ⟨by decide, by decide⟩

/-! ## Layer-store theorems

The concrete run behind C1 and C2: create R (slot 0), A (slot 1) and C
(slot 2); give R local transform `T(10,0,0)`, attach A under R, give the
root C local transform `T(0,5,0)`; evaluate (every world transform is then
correct); `insert_before(C, A)` — C becomes R's first child; evaluate
again.  Every call satisfies its documented precondition. -/

set_option maxRecDepth 16000 in
/-- **C1 (violated by the code).** After `insert_before(C, A)` and the
following `evaluate`, slot 2 (layer C) is a live child of slot 0 (layer R),
yet its world transform is *not* `parent.world_transform *
local_transform`: `insert_before` — alone among the topology mutations —
never marks the moved subtree's `TRANSFORM`/`OPACITY` channels, so the
evaluator recomputes nothing and C keeps the stale world transform
`T(0,5,0)` from its time as a root instead of `T(10,0,0) * T(0,5,0)` =
`T(10,5,0)`. -/
theorem c1_insert_before_breaks_world_transform_invariant :
    exEval2.2.is_alive ⟨2, 0⟩ = true ∧
    exEval2.2.is_alive ⟨0, 0⟩ = true ∧
    exEval2.2.parent.getD 2 INVALID = 0 ∧
    exEval2.2.world_transform.getD 2 Transform3d.identity ≠
      (exEval2.2.world_transform.getD 0 Transform3d.identity) *
        (exEval2.2.local_transform.getD 2 Transform3d.identity) := by
  refine ⟨by decide, by decide, by decide, fun h => ?_⟩
  have hx := congrArg (fun t : Transform3d => t.c3.x) h
  have h1 : (exEval2.2.world_transform.getD 2 Transform3d.identity).c3.x = 0 := by
    decide
  have h2 : ((exEval2.2.world_transform.getD 0 Transform3d.identity) *
      (exEval2.2.local_transform.getD 2 Transform3d.identity)).c3.x = 10 := by
    decide
  simp only [h1, h2] at hx
  norm_num at hx

set_option maxRecDepth 16000 in
/-- **C2 (violated by the code).** Before the `insert_before`, C (slot 2)
is a live root and A (slot 1) is a live layer whose parent is R (slot 0) —
the claim's preconditions hold — yet the evaluate that follows
`insert_before(C, A)` reports *empty* `transforms` and `opacities` lists:
the moved subtree `{2}` was never marked dirty on the TRANSFORM and
OPACITY channels (`insert_before` does not call
`mark_subtree_inherited_dirty`, unlike `add_child`, `remove_from_parent`
and `reparent`), although topology bookkeeping did happen
(`topology_changed = true`). -/
theorem c2_insert_before_skips_subtree_dirty_marks :
    exEval1.2.is_alive ⟨2, 0⟩ = true ∧
    exEval1.2.parent.getD 2 INVALID = INVALID ∧
    exEval1.2.is_alive ⟨1, 0⟩ = true ∧
    exEval1.2.parent.getD 1 INVALID = 0 ∧
    exEval2.1.transforms = [] ∧
    exEval2.1.opacities = [] ∧
    exEval2.1.topology_changed = true ∧
    2 ∉ exEval2.1.transforms ∧
    2 ∉ exEval2.1.opacities := by
  refine ⟨by decide, by decide, by decide, by decide, ?_, ?_, by decide, ?_, ?_⟩
  · decide
  · decide
  · decide
  · decide

end Subduction
